import Mathlib

/-! asg-route53-lambda: DNS records for the members of an auto scaling group

A shallow embedding of `asgroute53/zone_config_loader.go`, `asgroute53/asg_route53.go`,
`asgroute53/mocked_route53.go` and `main.go`, followed by theorems about it.

Conventions of the embedding.

* A Go `*string` that the code tests against `nil` or forwards as a pointer is an
  `Option String`. A pointer that the code dereferences unconditionally (`*tag.Key`,
  `*ec2Instance.InstanceId`) is the plain value: a `nil` there is a Go run-time panic,
  which lies outside this model.
* A Go `error` is an `Error` carrying its message; a Go function returning `error`
  returns `Option Error` (`none` for `nil`), one returning `(*T, error)` returns
  `Except Error (Option T)` or `Except Error T`.
* The functions of `main.go` index slices that can be empty. They end in a `Run`: they
  return, or they panic on such an index.
* The Route 53 client is an interface (`route53iface.Route53API`). It is embedded as a
  record of three transition functions over an arbitrary state `σ`, and every call made
  through it is appended to a log, so that theorems can speak about which remote calls
  an operation makes.
-/

set_option autoImplicit false

namespace AsgRoute53

/-! ## Data model -/

/-- A Go `error`, identified by its message. -/
structure Error where
  msg : String
deriving DecidableEq, Repr

/-- The type `ec2.Tag`: `Key` is dereferenced by the code, `Value` is handed on as a pointer. -/
structure Tag where
  Key : String
  Value : Option String
deriving DecidableEq, Repr

/-- The fields of `ec2.Instance` that the code reads. -/
structure Instance where
  InstanceId : String
  PrivateIpAddress : Option String
  PublicIpAddress : Option String
  Tags : List Tag
deriving DecidableEq, Repr

/-- The type `route53.ResourceRecord`. -/
structure ResourceRecord where
  Value : Option String
deriving DecidableEq, Repr

/-- The fields of `route53.ResourceRecordSet` that the code reads or writes. -/
structure ResourceRecordSet where
  Name : Option String
  RecordType : Option String
  ResourceRecords : List ResourceRecord
  TTL : Option Int
  SetIdentifier : Option String
  MultiValueAnswer : Option Bool
deriving DecidableEq, Repr

/-- The type `route53.Change`. -/
structure Change where
  Action : Option String
  RecordSet : ResourceRecordSet
deriving DecidableEq, Repr

/-- The type `route53.GetHostedZoneInput`. -/
structure GetHostedZoneInput where
  Id : Option String
deriving DecidableEq, Repr

/-- The fields of `route53.ListResourceRecordSetsInput` that the code sets. -/
structure ListResourceRecordSetsInput where
  HostedZoneId : Option String
  StartRecordType : Option String
  StartRecordName : Option String
deriving DecidableEq, Repr

/-- The type `route53.ChangeResourceRecordSetsInput`, with `ChangeBatch.Changes` inlined. -/
structure ChangeResourceRecordSetsInput where
  Changes : List Change
  HostedZoneId : Option String
deriving DecidableEq, Repr

/-- The fields of `route53.ListResourceRecordSetsOutput` that the code reads. -/
structure ListResourceRecordSetsOutput where
  ResourceRecordSets : List ResourceRecordSet
deriving DecidableEq, Repr

/-- The struct `Route53ZoneConfig` of `zone_config_loader.go`. -/
structure Route53ZoneConfig where
  HostedZoneID : String
  DNSRecords : List String
  SetIdentifier : Option String
  IsPublic : Bool
deriving DecidableEq, Repr

/-! ## The Route 53 client and the log of remote calls -/

/-- One remote call, with the input it was made with. -/
inductive Call where
  | getHostedZone (input : GetHostedZoneInput)
  | listResourceRecordSets (input : ListResourceRecordSetsInput)
  | changeResourceRecordSets (input : ChangeResourceRecordSetsInput)
deriving DecidableEq, Repr

/-- The three methods of `route53iface.Route53API` that the code calls, as transitions
of a remote state `σ`. The output of `GetHostedZone` and of `ChangeResourceRecordSets`
is discarded by the code (`_, err := ...`), so only success or failure is kept. -/
structure Route53API (σ : Type) where
  GetHostedZone : GetHostedZoneInput → σ → Except Error Unit × σ
  ListResourceRecordSets :
    ListResourceRecordSetsInput → σ → Except Error ListResourceRecordSetsOutput × σ
  ChangeResourceRecordSets : ChangeResourceRecordSetsInput → σ → Except Error Unit × σ

/-- The remote state together with the calls made so far, oldest first. -/
structure World (σ : Type) where
  store : σ
  calls : List Call

/-- Performs `route53Client.GetHostedZone(input)` and logs the call. -/
def callGetHostedZone {σ : Type} (c : Route53API σ) (input : GetHostedZoneInput)
    (w : World σ) : Except Error Unit × World σ :=
  ((c.GetHostedZone input w.store).1,
   { store := (c.GetHostedZone input w.store).2,
     calls := w.calls ++ [Call.getHostedZone input] })

/-- Performs `route53Client.ListResourceRecordSets(input)` and logs the call. -/
def callListResourceRecordSets {σ : Type} (c : Route53API σ)
    (input : ListResourceRecordSetsInput) (w : World σ) :
    Except Error ListResourceRecordSetsOutput × World σ :=
  ((c.ListResourceRecordSets input w.store).1,
   { store := (c.ListResourceRecordSets input w.store).2,
     calls := w.calls ++ [Call.listResourceRecordSets input] })

/-- Performs `route53Client.ChangeResourceRecordSets(input)` and logs the call. -/
def callChangeResourceRecordSets {σ : Type} (c : Route53API σ)
    (input : ChangeResourceRecordSetsInput) (w : World σ) : Except Error Unit × World σ :=
  ((c.ChangeResourceRecordSets input w.store).1,
   { store := (c.ChangeResourceRecordSets input w.store).2,
     calls := w.calls ++ [Call.changeResourceRecordSets input] })

/-! ## `zone_config_loader.go` -/

def privateHostedZoneIDKey : String := "asg-route53-lambda:private-hosted-zone-id"
def privateDNSRecordsKey : String := "asg-route53-lambda:private-dns-records"
def privateSetIdentifierKey : String := "asg-route53-lambda:private-set-identifier"
def publicHostedZoneIDKey : String := "asg-route53-lambda:public-hosted-zone-id"
def publicDNSRecordsKey : String := "asg-route53-lambda:public-dns-records"
def publicSetIdentifierKey : String := "asg-route53-lambda:public-set-identifier"

/-- The method `findValueFromEC2Tags`: the `Value` pointer of the first tag whose key is
`key`, and `nil` when no tag has that key. -/
def findValueFromEC2Tags : List Tag → String → Option String
  | [], _ => none
  | tag :: rest, key => if tag.Key = key then tag.Value else findValueFromEC2Tags rest key

/-- Splits a list of characters at every occurrence of `sep`; the pieces between two
neighbouring separators, before the first and after the last one are kept, empty or not. -/
def splitChars (sep : Char) : List Char → List (List Char)
  | [] => [[]]
  | ch :: rest =>
    if ch = sep then [] :: splitChars sep rest
    else
      match splitChars sep rest with
      | [] => [[ch]]
      | seg :: segs => (ch :: seg) :: segs

/-- The call `strings.Split(s, ",")` of the Go standard library. -/
def stringsSplitComma (s : String) : List String :=
  (splitChars ',' s.data).map String.mk

/-- The key names of the selected scope: the private ones unless `isPublic`. -/
def zoneIDKeyOf (isPublic : Bool) : String :=
  if isPublic then publicHostedZoneIDKey else privateHostedZoneIDKey

/-- The dns-records key of the selected scope. -/
def recordsKeyOf (isPublic : Bool) : String :=
  if isPublic then publicDNSRecordsKey else privateDNSRecordsKey

/-- The set-identifier key of the selected scope. -/
def setIdentifierKeyOf (isPublic : Bool) : String :=
  if isPublic then publicSetIdentifierKey else privateSetIdentifierKey

/-- The error `fmt.Errorf("both %s and %s should be specified", zoneIDKey, recordsKey)`. -/
def incompleteError (zoneIDKey recordsKey : String) : Error :=
  { msg := "both " ++ zoneIDKey ++ " and " ++ recordsKey ++ " should be specified" }

/-- The method `Route53ZoneConfigLoader.Load`. -/
def Load {σ : Type} (c : Route53API σ) (tags : List Tag) (isPublic : Bool) (w : World σ) :
    Except Error (Option Route53ZoneConfig) × World σ :=
  let zoneIDKey := zoneIDKeyOf isPublic
  let recordsKey := recordsKeyOf isPublic
  let setIdentifierKey := setIdentifierKeyOf isPublic
  let zoneID := findValueFromEC2Tags tags zoneIDKey
  let inDNSRecords := findValueFromEC2Tags tags recordsKey
  let setIdentifier := findValueFromEC2Tags tags setIdentifierKey
  if (zoneID ≠ none ∧ inDNSRecords = none) ∨ (zoneID = none ∧ inDNSRecords ≠ none) then
    (Except.error (incompleteError zoneIDKey recordsKey), w)
  else
    match zoneID, inDNSRecords with
    | some z, some d =>
      match callGetHostedZone c { Id := some z } w with
      | (Except.error err, w1) => (Except.error err, w1)
      | (Except.ok _, w1) =>
        (Except.ok (some { HostedZoneID := z
                           DNSRecords := stringsSplitComma d
                           SetIdentifier := setIdentifier
                           IsPublic := isPublic }), w1)
    | _, _ => (Except.ok none, w)

/-- The method `Route53ZoneConfig.MultiValueAnswer`. -/
def Route53ZoneConfig.MultiValueAnswer (c : Route53ZoneConfig) : Option Bool :=
  if c.SetIdentifier ≠ none then some true else none

/-! ## `asg_route53.go` -/

/-- The constant `ttl`. -/
def ttl : Int := 10

/-- The value `fmt.Sprintf("\"%s\"", instanceID)`. -/
def quoted (instanceID : String) : String :=
  "\"" ++ instanceID ++ "\""

/-- The method `ASGRoute53.getChanges`: a text record and an address record for `name`. -/
def getChanges (action : String) (config : Route53ZoneConfig) (name : String) (ttl : Int)
    (instanceID : String) (aResourceRecords : List ResourceRecord) : List Change :=
  [ { Action := some action
      RecordSet :=
        { Name := some name
          RecordType := some "TXT"
          ResourceRecords := [{ Value := some (quoted instanceID) }]
          TTL := some ttl
          SetIdentifier := config.SetIdentifier
          MultiValueAnswer := config.MultiValueAnswer } },
    { Action := some action
      RecordSet :=
        { Name := some name
          RecordType := some "A"
          ResourceRecords := aResourceRecords
          TTL := some ttl
          SetIdentifier := config.SetIdentifier
          MultiValueAnswer := config.MultiValueAnswer } } ]

/-- The loop of `getARecordSet` over `recordOutput.ResourceRecordSets`: the first record
set that passes one of the two tests on the set identifier. -/
def findRecordSet (setIdentifier : Option String) :
    List ResourceRecordSet → Option ResourceRecordSet
  | [] => none
  | recordSet :: rest =>
    match setIdentifier, recordSet.SetIdentifier with
    | none, none => some recordSet
    | some a, some b => if a = b then some recordSet else findRecordSet setIdentifier rest
    | _, _ => findRecordSet setIdentifier rest

/-- The error `fmt.Errorf("Could not find A record or SetIdentifier did not match: %s", name)`. -/
def recordNotFoundError (name : String) : Error :=
  { msg := "Could not find A record or SetIdentifier did not match: " ++ name }

/-- The method `ASGRoute53.getARecordSet`. -/
def getARecordSet {σ : Type} (c : Route53API σ) (hostedZoneID : String) (name : String)
    (setIdentifier : Option String) (w : World σ) : Except Error ResourceRecordSet × World σ :=
  match callListResourceRecordSets c
      { HostedZoneId := some hostedZoneID
        StartRecordType := some "A"
        StartRecordName := some name } w with
  | (Except.error err, w1) => (Except.error err, w1)
  | (Except.ok recordOutput, w1) =>
    match findRecordSet setIdentifier recordOutput.ResourceRecordSets with
    | some recordSet => (Except.ok recordSet, w1)
    | none => (Except.error (recordNotFoundError name), w1)

/-- The loop of `DeleteRecordSets` over the remaining names, `changes` being the slice
built so far; it stops at the first lookup that fails. -/
def deleteLoop {σ : Type} (c : Route53API σ) (config : Route53ZoneConfig)
    (ec2Instance : Instance) :
    List String → List Change → World σ → Except Error (List Change) × World σ
  | [], changes, w => (Except.ok changes, w)
  | record :: rest, changes, w =>
    match getARecordSet c config.HostedZoneID record config.SetIdentifier w with
    | (Except.error err, w1) => (Except.error err, w1)
    | (Except.ok recordSet, w1) =>
      deleteLoop c config ec2Instance rest
        (changes ++ getChanges "DELETE" config record ttl ec2Instance.InstanceId
          recordSet.ResourceRecords) w1

/-- The method `ASGRoute53.DeleteRecordSets`. -/
def DeleteRecordSets {σ : Type} (c : Route53API σ) (config : Route53ZoneConfig)
    (ec2Instance : Instance) (w : World σ) : Option Error × World σ :=
  match deleteLoop c config ec2Instance config.DNSRecords [] w with
  | (Except.error err, w1) => (some err, w1)
  | (Except.ok changes, w1) =>
    match callChangeResourceRecordSets c
        { Changes := changes, HostedZoneId := some config.HostedZoneID } w1 with
    | (Except.error err, w2) => (some err, w2)
    | (Except.ok _, w2) => (none, w2)

/-- The loop of `UpsertRecordSets` over the remaining names, `changes` being the slice
built so far. -/
def upsertLoop (config : Route53ZoneConfig) (ec2Instance : Instance)
    (ipAddress : Option String) : List String → List Change → List Change
  | [], changes => changes
  | record :: rest, changes =>
    upsertLoop config ec2Instance ipAddress rest
      (changes ++ getChanges "UPSERT" config record ttl ec2Instance.InstanceId
        [{ Value := ipAddress }])

/-- The method `ASGRoute53.UpsertRecordSets`. -/
def UpsertRecordSets {σ : Type} (c : Route53API σ) (config : Route53ZoneConfig)
    (ec2Instance : Instance) (w : World σ) : Option Error × World σ :=
  let ipAddress :=
    if config.IsPublic then ec2Instance.PublicIpAddress else ec2Instance.PrivateIpAddress
  let changes := upsertLoop config ec2Instance ipAddress config.DNSRecords []
  match callChangeResourceRecordSets c
      { Changes := changes, HostedZoneId := some config.HostedZoneID } w with
  | (Except.error err, w1) => (some err, w1)
  | (Except.ok _, w1) => (none, w1)

/-! ## `main.go` -/

/-- How a Go function ends: it returns a value, or it panics at run time. -/
inductive Run (α : Type) where
  | returned (value : α)
  | panicked (msg : String)
deriving DecidableEq, Repr

/-- The struct `asgLifecycleEventDetail`. -/
structure asgLifecycleEventDetail where
  LifecycleActionToken : String
  AutoScalingGroupName : String
  LifecycleHookName : String
  EC2InstanceID : String
  LifecycleTransition : String
deriving DecidableEq, Repr

/-- The fields of `autoscaling.CompleteLifecycleActionInput` that the code sets. -/
structure CompleteLifecycleActionInput where
  InstanceId : Option String
  LifecycleHookName : Option String
  LifecycleActionToken : Option String
  AutoScalingGroupName : Option String
  LifecycleActionResult : Option String
deriving DecidableEq, Repr

/-- The field of `ec2.Reservation` that the code reads. -/
structure Reservation where
  Instances : List Instance
deriving DecidableEq, Repr

/-- The field of `ec2.DescribeInstancesOutput` that the code reads. -/
structure DescribeInstancesOutput where
  Reservations : List Reservation
deriving DecidableEq, Repr

/-- The field of a record of `events.SNSEvent` that the code reads, `SNS.Message`. -/
structure SNSEventRecord where
  Message : String
deriving DecidableEq, Repr

/-- The type `events.SNSEvent`. -/
structure SNSEvent where
  Records : List SNSEventRecord
deriving DecidableEq, Repr

/-- What `main.go` calls besides Route 53, each at most once in a run of `Handler`:
`ec2Client.DescribeInstances` with the instance identifiers asked for,
`asgClient.CompleteLifecycleAction`, and `json.Unmarshal` into an
`asgLifecycleEventDetail`. -/
structure Services where
  DescribeInstances : List String → Except Error DescribeInstancesOutput
  CompleteLifecycleAction : CompleteLifecycleActionInput → Option Error
  jsonUnmarshal : String → Except Error asgLifecycleEventDetail

/-- The function `completeLifecycleAction`; the second component is the request sent. -/
def completeLifecycleAction (svc : Services) (event : asgLifecycleEventDetail)
    (result : String) : Option Error × CompleteLifecycleActionInput :=
  (svc.CompleteLifecycleAction
      { InstanceId := some event.EC2InstanceID
        LifecycleHookName := some event.LifecycleHookName
        LifecycleActionToken := some event.LifecycleActionToken
        AutoScalingGroupName := some event.AutoScalingGroupName
        LifecycleActionResult := some result },
    { InstanceId := some event.EC2InstanceID
      LifecycleHookName := some event.LifecycleHookName
      LifecycleActionToken := some event.LifecycleActionToken
      AutoScalingGroupName := some event.AutoScalingGroupName
      LifecycleActionResult := some result })

set_option linter.unusedVariables false in
/-- The function `appendZoneConfig`. Its body calls `zoneConfigLoader.Load(tags, false)`:
the parameter `isPublic` is not used. -/
def appendZoneConfig {σ : Type} (c : Route53API σ) (zoneConfigs : List Route53ZoneConfig)
    (tags : List Tag) (isPublic : Bool) (w : World σ) :
    Except Error (List Route53ZoneConfig) × World σ :=
  match Load c tags false w with
  | (Except.error err, w1) => (Except.error err, w1)
  | (Except.ok none, w1) => (Except.ok zoneConfigs, w1)
  | (Except.ok (some zoneConfig), w1) => (Except.ok (zoneConfigs ++ [zoneConfig]), w1)

/-- Lines 84 to 93 of `lifecycleEventHandler`: the list of configs, built by
`appendZoneConfig` with `false` and then with `true`. -/
def resolveZoneConfigs {σ : Type} (c : Route53API σ) (tags : List Tag) (w : World σ) :
    Except Error (List Route53ZoneConfig) × World σ :=
  match appendZoneConfig c [] tags false w with
  | (Except.error err, w1) => (Except.error err, w1)
  | (Except.ok zoneConfigs, w1) => appendZoneConfig c zoneConfigs tags true w1

/-- The loop of the `LAUNCHING` case of `lifecycleEventHandler`. -/
def upsertEach {σ : Type} (c : Route53API σ) (ec2Instance : Instance) :
    List Route53ZoneConfig → World σ → Option Error × World σ
  | [], w => (none, w)
  | zoneConfig :: rest, w =>
    match UpsertRecordSets c zoneConfig ec2Instance w with
    | (some err, w1) => (some err, w1)
    | (none, w1) => upsertEach c ec2Instance rest w1

/-- The loop of the `TERMINATING` case of `lifecycleEventHandler`. -/
def deleteEach {σ : Type} (c : Route53API σ) (ec2Instance : Instance) :
    List Route53ZoneConfig → World σ → Option Error × World σ
  | [], w => (none, w)
  | zoneConfig :: rest, w =>
    match DeleteRecordSets c zoneConfig ec2Instance w with
    | (some err, w1) => (some err, w1)
    | (none, w1) => deleteEach c ec2Instance rest w1

/-- The error `errors.New("failed to find an EC2 instance")`. -/
def instanceNotFoundError : Error :=
  { msg := "failed to find an EC2 instance" }

/-- The function `lifecycleEventHandler`. The guard compares the two lengths with
`< 0`; its second operand and the line after it index `Reservations[0]` and
`Instances[0]`, which panics on an empty slice. -/
def lifecycleEventHandler {σ : Type} (c : Route53API σ) (svc : Services)
    (event : asgLifecycleEventDetail) (w : World σ) : Run (Option Error) × World σ :=
  match svc.DescribeInstances [event.EC2InstanceID] with
  | Except.error err => (Run.returned (some err), w)
  | Except.ok describeInstancesResp =>
    if describeInstancesResp.Reservations.length < 0 then
      (Run.returned (some instanceNotFoundError), w)
    else
      match describeInstancesResp.Reservations with
      | [] => (Run.panicked "index out of range [0] with length 0", w)
      | reservation :: _ =>
        if reservation.Instances.length < 0 then
          (Run.returned (some instanceNotFoundError), w)
        else
          match reservation.Instances with
          | [] => (Run.panicked "index out of range [0] with length 0", w)
          | ec2Instance :: _ =>
            match resolveZoneConfigs c ec2Instance.Tags w with
            | (Except.error err, w1) => (Run.returned (some err), w1)
            | (Except.ok zoneConfigs, w1) =>
              if event.LifecycleTransition = "autoscaling:EC2_INSTANCE_LAUNCHING" then
                (Run.returned (upsertEach c ec2Instance zoneConfigs w1).1,
                  (upsertEach c ec2Instance zoneConfigs w1).2)
              else if event.LifecycleTransition = "autoscaling:EC2_INSTANCE_TERMINATING" then
                (Run.returned (deleteEach c ec2Instance zoneConfigs w1).1,
                  (deleteEach c ec2Instance zoneConfigs w1).2)
              else
                (Run.returned (some { msg := "unsupported lifecycle transition: "
                  ++ event.LifecycleTransition }), w1)

/-- What a run of `Handler` leaves: how it ended, the Route 53 world, and the
lifecycle results it sent with `CompleteLifecycleAction`, oldest first. -/
structure HandlerResult (σ : Type) where
  outcome : Run (Option Error)
  world : World σ
  signals : List CompleteLifecycleActionInput

/-- The function `Handler`. -/
def Handler {σ : Type} (c : Route53API σ) (svc : Services) (snsEvent : SNSEvent)
    (w : World σ) : HandlerResult σ :=
  match snsEvent.Records with
  | [] => { outcome := Run.panicked "index out of range [0] with length 0"
            world := w, signals := [] }
  | record :: _ =>
    match svc.jsonUnmarshal record.Message with
    | Except.error err => { outcome := Run.returned (some err), world := w, signals := [] }
    | Except.ok event =>
      if event.LifecycleTransition ≠ "autoscaling:EC2_INSTANCE_LAUNCHING"
          ∧ event.LifecycleTransition ≠ "autoscaling:EC2_INSTANCE_TERMINATING" then
        { outcome := Run.returned none, world := w, signals := [] }
      else
        match lifecycleEventHandler c svc event w with
        | (Run.panicked msg, w1) => { outcome := Run.panicked msg, world := w1, signals := [] }
        | (Run.returned err, w1) =>
          if err ≠ none
              ∧ event.LifecycleTransition = "autoscaling:EC2_INSTANCE_LAUNCHING" then
            { outcome := Run.returned err
              world := w1
              signals := [(completeLifecycleAction svc event "ABANDON").2] }
          else
            match completeLifecycleAction svc event "CONTINUE" with
            | (some err2, sent) =>
              { outcome := Run.returned (some err2), world := w1, signals := [sent] }
            | (none, sent) => { outcome := Run.returned none, world := w1, signals := [sent] }

/-! ## `mocked_route53.go` -/

/-- The struct `mockedRoute53`: canned answers for the three calls. The outputs of
`GetHostedZone` and `ChangeResourceRecordSets` are never read by the code. -/
structure mockedRoute53 where
  listResourceRecordSetsOutput : ListResourceRecordSetsOutput
  listResourceRecordSetsError : Option Error
  getHostedZoneError : Option Error
  changeResourceRecordSetError : Option Error
deriving DecidableEq, Repr

/-- The three methods of `mockedRoute53`, as a client without remote state. -/
def mockedRoute53.api (m : mockedRoute53) : Route53API Unit where
  GetHostedZone := fun _ s =>
    match m.getHostedZoneError with
    | some err => (Except.error err, s)
    | none => (Except.ok (), s)
  ListResourceRecordSets := fun _ s =>
    match m.listResourceRecordSetsError with
    | some err => (Except.error err, s)
    | none => (Except.ok m.listResourceRecordSetsOutput, s)
  ChangeResourceRecordSets := fun _ s =>
    match m.changeResourceRecordSetError with
    | some err => (Except.error err, s)
    | none => (Except.ok (), s)

/-- A world in which no call has been made yet. -/
def World.fresh {σ : Type} (s : σ) : World σ :=
  { store := s, calls := [] }

/-! ## Notions used to state the properties -/

/-- Joins pieces with a separator put between neighbours: the inverse of `splitChars`. -/
def joinWith (sep : List Char) : List (List Char) → List Char
  | [] => []
  | seg :: segs => seg ++ (segs.map (fun x => sep ++ x)).flatten

/-- The input of the list call that `getARecordSet` makes for `name`. -/
def listInputFor (hostedZoneID name : String) : ListResourceRecordSetsInput :=
  { HostedZoneId := some hostedZoneID
    StartRecordType := some "A"
    StartRecordName := some name }

/-- Runs the lookup `getARecordSet` for each of `names` in turn, left to right, each in
the world the previous one left. It yields the record sets found, or the error of the
first lookup that fails, in which case the later names are not looked up. -/
def lookupEach {σ : Type} (c : Route53API σ) (hostedZoneID : String)
    (setIdentifier : Option String) :
    List String → World σ → Except Error (List ResourceRecordSet) × World σ
  | [], w => (Except.ok [], w)
  | name :: rest, w =>
    match getARecordSet c hostedZoneID name setIdentifier w with
    | (Except.error err, w1) => (Except.error err, w1)
    | (Except.ok recordSet, w1) =>
      match lookupEach c hostedZoneID setIdentifier rest w1 with
      | (Except.error err, w2) => (Except.error err, w2)
      | (Except.ok found, w2) => (Except.ok (recordSet :: found), w2)

/-! ## A model of the authoritative DNS store

The store is a service outside the repository. Its two mutations are taken from the
wording of the specification: an insert-or-replace change sets the record for its
(name, type, group key), a delete change removes the record that has exactly the
submitted content, and a batch is applied as a whole or not at all. What a list call
answers is left as a parameter. -/

/-- Modelled from the spec: the state of the DNS store, the identifiers of the zones
that exist and the record sets held, each with the zone it belongs to. -/
structure DNSStore where
  zones : List String
  records : List (String × ResourceRecordSet)
deriving DecidableEq, Repr

/-- Modelled from the spec: two record sets stand for the same (name, type, group key). -/
def sameSlot (a b : ResourceRecordSet) : Bool :=
  decide (a.Name = b.Name) && decide (a.RecordType = b.RecordType)
    && decide (a.SetIdentifier = b.SetIdentifier)

/-- Modelled from the spec: insert-or-replace of `r` in `zone`; the record set of the
same (name, type, group key) is replaced where it stands, otherwise `r` is added last. -/
def upsertRecord (zone : String) (r : ResourceRecordSet) :
    List (String × ResourceRecordSet) → List (String × ResourceRecordSet)
  | [] => [(zone, r)]
  | p :: rest =>
    if p.1 = zone ∧ sameSlot p.2 r = true then (zone, r) :: rest
    else p :: upsertRecord zone r rest

/-- Modelled from the spec: the effect of one change; a delete whose content matches no
record set of the zone is refused, as is an action other than `UPSERT` and `DELETE`. -/
def applyChange (zone : String) (records : List (String × ResourceRecordSet))
    (ch : Change) : Option (List (String × ResourceRecordSet)) :=
  if ch.Action = some "UPSERT" then some (upsertRecord zone ch.RecordSet records)
  else if ch.Action = some "DELETE" then
    if (zone, ch.RecordSet) ∈ records then some (records.erase (zone, ch.RecordSet))
    else none
  else none

/-- Modelled from the spec: the changes of a batch applied in order; `none` when one of
them is refused. -/
def applyBatch (zone : String) :
    List (String × ResourceRecordSet) → List Change →
      Option (List (String × ResourceRecordSet))
  | records, [] => some records
  | records, ch :: rest =>
    match applyChange zone records ch with
    | none => none
    | some records1 => applyBatch zone records1 rest

/-- Modelled from the spec: the store as a Route 53 client. `zoneExists` fails for an
unknown zone, `batchMutate` applies the whole batch or fails and leaves the store as it
was, and `listRecords` answers `listing input s` without changing the store. -/
def dnsStoreAPI (listing : ListResourceRecordSetsInput → DNSStore → List ResourceRecordSet) :
    Route53API DNSStore where
  GetHostedZone := fun input s =>
    match input.Id with
    | none => (Except.error { msg := "InvalidInput" }, s)
    | some z =>
      if z ∈ s.zones then (Except.ok (), s)
      else (Except.error { msg := "NoSuchHostedZone" }, s)
  ListResourceRecordSets := fun input s =>
    (Except.ok { ResourceRecordSets := listing input s }, s)
  ChangeResourceRecordSets := fun input s =>
    match input.HostedZoneId with
    | none => (Except.error { msg := "InvalidInput" }, s)
    | some z =>
      match applyBatch z s.records input.Changes with
      | none => (Except.error { msg := "InvalidChangeBatch" }, s)
      | some records1 => (Except.ok (), { s with records := records1 })

/-- Modelled from the spec: a listing that answers with the record sets of the requested
zone from the first one that has the requested name and type on, the order of the store
standing for the order in which the service lists. -/
def listFrom (input : ListResourceRecordSetsInput) (s : DNSStore) : List ResourceRecordSet :=
  ((s.records.filter (fun p => decide (some p.1 = input.HostedZoneId))).map Prod.snd).dropWhile
    (fun r => !(decide (r.Name = input.StartRecordName)
      && decide (r.RecordType = input.StartRecordType)))

/-! ## Data of the repository's tests, used to instantiate the theorems -/

/-- The mock of the tests whose three calls all succeed; the list call answers `sets`. -/
def mockAnswering (sets : List ResourceRecordSet) : mockedRoute53 :=
  { listResourceRecordSetsOutput := { ResourceRecordSets := sets }
    listResourceRecordSetsError := none
    getHostedZoneError := none
    changeResourceRecordSetError := none }

/-- The mock of the test case `hosted-zone-request-error`. -/
def mockZoneError : mockedRoute53 :=
  { listResourceRecordSetsOutput := { ResourceRecordSets := [] }
    listResourceRecordSetsError := none
    getHostedZoneError := some { msg := "someError" }
    changeResourceRecordSetError := none }

/-- The tag list `validTags` of `Test_Load`. -/
def validTags : List Tag :=
  [ { Key := publicHostedZoneIDKey, Value := some "PUBLIC-ZONE-ID" },
    { Key := publicDNSRecordsKey, Value := some "public0.example.com,public1.example.com" },
    { Key := publicSetIdentifierKey, Value := some "public-set-identifier" },
    { Key := privateHostedZoneIDKey, Value := some "PRIVATE-ZONE-ID" },
    { Key := privateDNSRecordsKey, Value := some "private0.example.com,private1.example.com" },
    { Key := privateSetIdentifierKey, Value := some "private-set-identifier" } ]

/-- The tag list `zoneIDMissingTags` of `Test_Load`. -/
def zoneIDMissingTags : List Tag :=
  [ { Key := privateDNSRecordsKey, Value := some "private.example.com" },
    { Key := publicDNSRecordsKey, Value := some "public.example.com" } ]

/-- The tag list `dnsRecordMissingTags` of `Test_Load`. -/
def dnsRecordMissingTags : List Tag :=
  [ { Key := publicHostedZoneIDKey, Value := some "PUBLIC-ZONE-ID" },
    { Key := privateHostedZoneIDKey, Value := some "PRIVATE-ZONE-ID" } ]

/-- A tag list that configures the private scope only, with a set identifier of the
public scope left over. -/
def privateOnlyTags : List Tag :=
  [ { Key := privateHostedZoneIDKey, Value := some "Z1" },
    { Key := privateDNSRecordsKey, Value := some "svc.internal.example.com" },
    { Key := publicSetIdentifierKey, Value := some "g1" } ]

/-- The record set that the mock of the test case `found` answers with. -/
def foundRecord : ResourceRecordSet :=
  { Name := none
    RecordType := none
    ResourceRecords := [{ Value := some "foo.example.com" }]
    TTL := none
    SetIdentifier := some "identifier"
    MultiValueAnswer := none }

/-- A record set of another name and another type, without a set identifier: what a zone
that has no address record for `foo.example.com` lists after that name. -/
def mailRecord : ResourceRecordSet :=
  { Name := some "mail.example.com"
    RecordType := some "MX"
    ResourceRecords := [{ Value := some "10 mx.example.com" }]
    TTL := some 300
    SetIdentifier := none
    MultiValueAnswer := none }

/-- The config of the test case `found-no-set-identifier`. -/
def fooConfig : Route53ZoneConfig :=
  { HostedZoneID := "ID"
    DNSRecords := ["foo.example.com"]
    SetIdentifier := none
    IsPublic := false }

/-- The config of the test case `found`. -/
def fooGroupConfig : Route53ZoneConfig :=
  { HostedZoneID := "ID"
    DNSRecords := ["foo.example.com"]
    SetIdentifier := some "identifier"
    IsPublic := false }

/-- The instance of the tests of `DeleteRecordSets`. -/
def testInstance : Instance :=
  { InstanceId := "i-123456789abcdef"
    PrivateIpAddress := some "0.0.0.0"
    PublicIpAddress := none
    Tags := [] }

/-- An address record set for `name` with the given group key and one address, as
`UpsertRecordSets` writes it. -/
def addressRecord (name : String) (groupKey : Option String) (address : String) :
    ResourceRecordSet :=
  { Name := some name
    RecordType := some "A"
    ResourceRecords := [{ Value := some address }]
    TTL := some 10
    SetIdentifier := groupKey
    MultiValueAnswer := if groupKey.isSome = true then some true else none }

/-- A store with one zone that holds an address record for `a.example.com` and none for
`b.example.com`. -/
def storeWithA : DNSStore :=
  { zones := ["ID"]
    records := [("ID", addressRecord "a.example.com" none "10.0.0.5")] }

/-- A config that names `a.example.com`, then `b.example.com`, then `c.example.com`. -/
def abcConfig : Route53ZoneConfig :=
  { HostedZoneID := "ID"
    DNSRecords := ["a.example.com", "b.example.com", "c.example.com"]
    SetIdentifier := none
    IsPublic := false }

/-- The config of the first member of the scenario of the specification. -/
def memberOneConfig : Route53ZoneConfig :=
  { HostedZoneID := "Z1"
    DNSRecords := ["svc.internal.example.com"]
    SetIdentifier := some "g1"
    IsPublic := false }

/-- The config of a second member that shares the name, under another group key. -/
def memberTwoConfig : Route53ZoneConfig :=
  { HostedZoneID := "Z1"
    DNSRecords := ["svc.internal.example.com"]
    SetIdentifier := some "g2"
    IsPublic := false }

/-- The instance of the scenario of the specification. -/
def memberOne : Instance :=
  { InstanceId := "i-001"
    PrivateIpAddress := some "10.0.0.5"
    PublicIpAddress := none
    Tags := [] }

/-- A second instance. -/
def memberTwo : Instance :=
  { InstanceId := "i-002"
    PrivateIpAddress := some "10.0.0.6"
    PublicIpAddress := none
    Tags := [] }

/-- A store with the zone `Z1` and no record set. -/
def emptyZone : DNSStore :=
  { zones := ["Z1"], records := [] }

/-- The store after `UpsertRecordSets` for the first and then for the second member. -/
def twoMembers : DNSStore :=
  (UpsertRecordSets (dnsStoreAPI listFrom) memberTwoConfig memberTwo
    (UpsertRecordSets (dnsStoreAPI listFrom) memberOneConfig memberOne
      (World.fresh emptyZone)).2).2.store

/-- Tags of the private scope whose hosted-zone-id value is the empty string. -/
def emptyZoneIDTags : List Tag :=
  [ { Key := privateHostedZoneIDKey, Value := some "" },
    { Key := privateDNSRecordsKey, Value := some "a.example.com" } ]

/-- The mock of the test case `change-error`. -/
def mockChangeError : mockedRoute53 :=
  { listResourceRecordSetsOutput := { ResourceRecordSets := [foundRecord] }
    listResourceRecordSetsError := none
    getHostedZoneError := none
    changeResourceRecordSetError := some { msg := "changeError" } }

/-- The config that the test case `private` of `Test_Load` expects. -/
def privateTestConfig : Route53ZoneConfig :=
  { HostedZoneID := "PRIVATE-ZONE-ID"
    DNSRecords := ["private0.example.com", "private1.example.com"]
    SetIdentifier := some "private-set-identifier"
    IsPublic := false }

/-- A store that has the zone of `privateTestConfig` and no record set. -/
def privateZoneStore : DNSStore :=
  { zones := ["PRIVATE-ZONE-ID"], records := [] }

/-- Whether `key` is one of the three tag keys of the scope. -/
def isScopeKey (isPublic : Bool) (key : String) : Bool :=
  decide (key = zoneIDKeyOf isPublic) || decide (key = recordsKeyOf isPublic)
    || decide (key = setIdentifierKeyOf isPublic)

/-- The tag list `validTags` with a tag of another application put in front. -/
def validTagsAndMore : List Tag :=
  { Key := "Name", Value := some "web-1" } :: validTags

/-- An instance that has a private address and no public one. -/
def privateOnlyInstance : Instance :=
  { InstanceId := "i-001"
    PrivateIpAddress := some "10.0.0.5"
    PublicIpAddress := none
    Tags := [] }

/-- A config of the public scope with two names. -/
def publicTwoNames : Route53ZoneConfig :=
  { HostedZoneID := "Z2"
    DNSRecords := ["a.example.com", "b.example.com"]
    SetIdentifier := none
    IsPublic := true }

/-- The config that the test case `public` of `Test_Load` expects. -/
def publicTestConfig : Route53ZoneConfig :=
  { HostedZoneID := "PUBLIC-ZONE-ID"
    DNSRecords := ["public0.example.com", "public1.example.com"]
    SetIdentifier := some "public-set-identifier"
    IsPublic := true }

/-- The tags of the public scope of `validTags`, and no tag of the private scope. -/
def publicOnlyTags : List Tag :=
  [ { Key := publicHostedZoneIDKey, Value := some "PUBLIC-ZONE-ID" },
    { Key := publicDNSRecordsKey, Value := some "public0.example.com,public1.example.com" },
    { Key := publicSetIdentifierKey, Value := some "public-set-identifier" } ]

/-- A lifecycle event for the launch of `i-001`. -/
def launchEvent : asgLifecycleEventDetail :=
  { LifecycleActionToken := "token"
    AutoScalingGroupName := "group"
    LifecycleHookName := "hook"
    EC2InstanceID := "i-001"
    LifecycleTransition := "autoscaling:EC2_INSTANCE_LAUNCHING" }

/-- A lifecycle event for the termination of `i-001`. -/
def terminateEvent : asgLifecycleEventDetail :=
  { LifecycleActionToken := "token"
    AutoScalingGroupName := "group"
    LifecycleHookName := "hook"
    EC2InstanceID := "i-001"
    LifecycleTransition := "autoscaling:EC2_INSTANCE_TERMINATING" }

/-- Services in which `DescribeInstances` answers `described`, every message parses to
`event`, and `CompleteLifecycleAction` succeeds. -/
def servicesAnswering (described : Except Error DescribeInstancesOutput)
    (event : asgLifecycleEventDetail) : Services :=
  { DescribeInstances := fun _ => described
    CompleteLifecycleAction := fun _ => none
    jsonUnmarshal := fun _ => Except.ok event }

/-- An SNS event with one record. -/
def oneMessage : SNSEvent :=
  { Records := [{ Message := "message" }] }

/-- Modelled from the spec: a listing that answers with the record sets of the requested
zone, those that have the requested name and type first and the others after them. The
service lists in the order of name and type from the requested position on, so the
record sets at that position come first, whatever follows them. -/
def listNameTypeFirst (input : ListResourceRecordSetsInput) (s : DNSStore) :
    List ResourceRecordSet :=
  ((s.records.filter (fun p => decide (some p.1 = input.HostedZoneId))).map Prod.snd).filter
      (fun r => decide (r.Name = input.StartRecordName)
        && decide (r.RecordType = input.StartRecordType))
  ++ ((s.records.filter (fun p => decide (some p.1 = input.HostedZoneId))).map Prod.snd).filter
      (fun r => !(decide (r.Name = input.StartRecordName)
        && decide (r.RecordType = input.StartRecordType)))

/-- The config of the test case `found-no-set-identifier`, for `a.example.com`. -/
def aConfig : Route53ZoneConfig :=
  { HostedZoneID := "ID"
    DNSRecords := ["a.example.com"]
    SetIdentifier := none
    IsPublic := false }

/-- A config without group key that names `a.example.com` twice. -/
def aTwiceConfig : Route53ZoneConfig :=
  { HostedZoneID := "ID"
    DNSRecords := ["a.example.com", "a.example.com"]
    SetIdentifier := none
    IsPublic := false }

/-- A store with the zone `ID` and no record set. -/
def emptyStore : DNSStore :=
  { zones := ["ID"], records := [] }

/-- A store whose zone `ID` holds record sets of other names, of another type and of
another group key than `abcConfig` writes. -/
def busyStore : DNSStore :=
  { zones := ["ID"]
    records :=
      [ ("ID", mailRecord),
        ("ID", addressRecord "a.example.com" (some "g9") "10.9.9.9"),
        ("OTHER", addressRecord "a.example.com" none "10.8.8.8") ] }

/-- The record sets of the changes that `getChanges` builds for `names`, in order: for
each name the text record set and the address record set. -/
def recordSetsFor (config : Route53ZoneConfig) (instanceID : String)
    (aResourceRecords : List ResourceRecord) (names : List String) : List ResourceRecordSet :=
  ((names.map (fun name =>
    getChanges "UPSERT" config name ttl instanceID aResourceRecords)).flatten).map
      (fun ch => ch.RecordSet)

/-- A mock whose list call answers with no record set and whose mutation call fails. -/
def mockNothingListed : mockedRoute53 :=
  { listResourceRecordSetsOutput := { ResourceRecordSets := [] }
    listResourceRecordSetsError := none
    getHostedZoneError := none
    changeResourceRecordSetError := some { msg := "changeError" } }

/-! ## Lemmas on splitting and joining -/

theorem splitChars_ne_nil (sep : Char) (l : List Char) : splitChars sep l ≠ [] := by
  cases l with
  | nil => simp [splitChars]
  | cons ch rest =>
    unfold splitChars
    split
    · simp
    · split <;> simp

theorem joinWith_splitChars (sep : Char) (l : List Char) :
    joinWith [sep] (splitChars sep l) = l := by
  induction l with
  | nil => simp [splitChars, joinWith]
  | cons ch rest ih =>
    unfold splitChars
    have hne := splitChars_ne_nil sep rest
    cases hs : splitChars sep rest with
    | nil => exact absurd hs hne
    | cons seg segs =>
      rw [hs] at ih
      by_cases h : ch = sep
      · rw [if_pos h]
        simp only [joinWith] at ih ⊢
        simp only [List.singleton_append] at ih
        simp [ih, h]
      · rw [if_neg h]
        simp only [joinWith] at ih ⊢
        simp only [List.singleton_append] at ih
        simp [ih]

theorem intercalate_eq_joinWith (sep : List Char) (segs : List (List Char)) :
    List.intercalate sep segs = joinWith sep segs := by
  cases segs with
  | nil => simp [List.intercalate, joinWith]
  | cons seg segs =>
    induction segs generalizing seg with
    | nil => simp [List.intercalate, joinWith]
    | cons s2 rest ih =>
      have := ih s2
      simp only [List.intercalate, joinWith, List.intersperse, List.flatten_cons, List.map_cons] at this ⊢
      rw [this]
      simp

theorem intercalate_go_data (sep : String) (l : List String) (acc : String) :
    (String.intercalate.go acc sep l).data
      = acc.data ++ (l.map (fun a => sep.data ++ a.data)).flatten := by
  induction l generalizing acc with
  | nil => simp [String.intercalate.go]
  | cons a as ih => simp [String.intercalate.go, ih, String.data_append]

theorem String_intercalate_data (sep : String) (l : List String) :
    (String.intercalate sep l).data = joinWith sep.data (l.map String.data) := by
  cases l with
  | nil => simp [String.intercalate, joinWith]
  | cons a as =>
    simp [String.intercalate, joinWith, intercalate_go_data, List.map_map, Function.comp_def]

theorem intercalate_stringsSplitComma (s : String) :
    String.intercalate "," (stringsSplitComma s) = s := by
  apply String.ext
  rw [String_intercalate_data]
  simp only [stringsSplitComma, List.map_map]
  have : (String.data ∘ String.mk) = id := by funext x; rfl
  rw [this, List.map_id]
  exact joinWith_splitChars ',' s.data

theorem splitChars_not_mem (sep : Char) (l : List Char) :
    ∀ seg ∈ splitChars sep l, sep ∉ seg := by
  induction l with
  | nil => simp [splitChars]
  | cons ch rest ih =>
    unfold splitChars
    have hne := splitChars_ne_nil sep rest
    cases hs : splitChars sep rest with
    | nil => exact absurd hs hne
    | cons seg segs =>
      rw [hs] at ih
      by_cases h : ch = sep
      · rw [if_pos h]
        intro x hx
        simp only [List.mem_cons] at hx
        rcases hx with rfl | hx
        · simp
        · exact ih x (by simpa using hx)
      · rw [if_neg h]
        intro x hx
        simp only [List.mem_cons] at hx
        rcases hx with rfl | hx
        · have := ih seg (by simp)
          simp only [List.mem_cons, not_or]
          exact ⟨fun e => h e.symm, this⟩
        · exact ih x (by simp [hx])

theorem length_splitChars (sep : Char) (l : List Char) :
    (splitChars sep l).length = l.count sep + 1 := by
  induction l with
  | nil => simp [splitChars]
  | cons ch rest ih =>
    unfold splitChars
    have hne := splitChars_ne_nil sep rest
    cases hs : splitChars sep rest with
    | nil => exact absurd hs hne
    | cons seg segs =>
      rw [hs] at ih
      by_cases h : ch = sep
      · rw [if_pos h]
        simp only [List.length_cons] at ih ⊢
        rw [ih, h, List.count_cons_self]
      · rw [if_neg h]
        simp only [List.length_cons] at ih ⊢
        rw [ih, List.count_cons_of_ne (fun e => h e.symm)]

/-! ## Lemmas on the tag lookup -/

theorem findValueFromEC2Tags_of_no_key (tags : List Tag) (key : String)
    (h : ∀ t ∈ tags, t.Key ≠ key) : findValueFromEC2Tags tags key = none := by
  induction tags with
  | nil => rfl
  | cons t rest ih =>
    have ht : t.Key ≠ key := h t (by simp)
    simp only [findValueFromEC2Tags, if_neg ht]
    exact ih (fun x hx => h x (by simp [hx]))

theorem findValueFromEC2Tags_isSome_of_key (tags : List Tag) (key : String)
    (hval : ∀ t ∈ tags, t.Value ≠ none) (h : ∃ t ∈ tags, t.Key = key) :
    (findValueFromEC2Tags tags key).isSome = true := by
  induction tags with
  | nil => simp at h
  | cons t rest ih =>
    by_cases ht : t.Key = key
    · simp only [findValueFromEC2Tags, if_pos ht]
      have := hval t (by simp)
      cases hv : t.Value with
      | none => exact absurd hv this
      | some v => rfl
    · simp only [findValueFromEC2Tags, if_neg ht]
      apply ih (fun x hx => hval x (by simp [hx]))
      obtain ⟨x, hx, hk⟩ := h
      simp only [List.mem_cons] at hx
      rcases hx with rfl | hx
      · exact absurd hk ht
      · exact ⟨x, hx, hk⟩

/-! ## `Load` -/

/-- C1: when exactly one of the hosted-zone-id tag and the dns-records tag of the
selected scope is present (the lookup of its key yields a value), `Load` fails with the
error naming the two keys, returns no config, and leaves the world as it was: no call
is made, so no zone-existence call either. -/
theorem Load_incomplete {σ : Type} (c : Route53API σ) (tags : List Tag) (isPublic : Bool)
    (w : World σ)
    (h : ((findValueFromEC2Tags tags (zoneIDKeyOf isPublic)).isSome = true
          ∧ findValueFromEC2Tags tags (recordsKeyOf isPublic) = none)
        ∨ (findValueFromEC2Tags tags (zoneIDKeyOf isPublic) = none
          ∧ (findValueFromEC2Tags tags (recordsKeyOf isPublic)).isSome = true)) :
    Load c tags isPublic w
      = (Except.error
          { msg := "both " ++ zoneIDKeyOf isPublic ++ " and " ++ recordsKeyOf isPublic
                    ++ " should be specified" }, w) := by
  unfold Load
  simp only []
  rw [if_pos]
  · rfl
  · rcases h with ⟨h1, h2⟩ | ⟨h1, h2⟩
    · left
      refine ⟨?_, h2⟩
      intro hn
      rw [hn] at h1
      exact Bool.noConfusion h1
    · right
      refine ⟨h1, ?_⟩
      intro hn
      rw [hn] at h2
      exact Bool.noConfusion h2

/-- Instance of C1: the test case `private-zone-id-missing`. -/
theorem Load_incomplete_witness :
    Load (mockAnswering []).api zoneIDMissingTags false (World.fresh ())
      = (Except.error
          { msg := "both " ++ zoneIDKeyOf false ++ " and " ++ recordsKeyOf false
                    ++ " should be specified" }, World.fresh ()) :=
  Load_incomplete (mockAnswering []).api zoneIDMissingTags false (World.fresh ())
    (Or.inr ⟨by decide, by decide⟩)

/-- C2: when no tag has the hosted-zone-id key or the dns-records key of the selected
scope, `Load` returns no config and no error and leaves the world as it was (no remote
call), whatever other tags, a set identifier of that scope among them, are present. -/
theorem Load_absent {σ : Type} (c : Route53API σ) (tags : List Tag) (isPublic : Bool)
    (w : World σ)
    (h : ∀ t ∈ tags, t.Key ≠ zoneIDKeyOf isPublic ∧ t.Key ≠ recordsKeyOf isPublic) :
    Load c tags isPublic w = (Except.ok none, w) := by
  have hz := findValueFromEC2Tags_of_no_key tags (zoneIDKeyOf isPublic) (fun t ht => (h t ht).1)
  have hr := findValueFromEC2Tags_of_no_key tags (recordsKeyOf isPublic) (fun t ht => (h t ht).2)
  unfold Load
  simp only [hz, hr]
  rw [if_neg]
  simp

/-- Instance of C2: tags of the private scope and a public set identifier, read for
the public scope. -/
theorem Load_absent_witness :
    Load (mockAnswering []).api privateOnlyTags true (World.fresh ())
      = (Except.ok none, World.fresh ()) :=
  Load_absent (mockAnswering []).api privateOnlyTags true (World.fresh ()) (by decide)

/-- What `Load` does once both lookups have yielded a value: one zone-existence call,
whose answer decides between the error and the config. -/
theorem Load_both {σ : Type} (c : Route53API σ) (tags : List Tag) (isPublic : Bool)
    (w : World σ) (z d : String)
    (hz : findValueFromEC2Tags tags (zoneIDKeyOf isPublic) = some z)
    (hd : findValueFromEC2Tags tags (recordsKeyOf isPublic) = some d) :
    Load c tags isPublic w
      = (match (c.GetHostedZone { Id := some z } w.store).1 with
          | Except.error err => Except.error err
          | Except.ok _ =>
            Except.ok (some { HostedZoneID := z
                              DNSRecords := stringsSplitComma d
                              SetIdentifier :=
                                findValueFromEC2Tags tags (setIdentifierKeyOf isPublic)
                              IsPublic := isPublic }),
         { store := (c.GetHostedZone { Id := some z } w.store).2
           calls := w.calls ++ [Call.getHostedZone { Id := some z }] }) := by
  unfold Load
  simp only [hz, hd]
  rw [if_neg (by simp)]
  simp only [callGetHostedZone]
  cases hres : (c.GetHostedZone { Id := some z } w.store).1 <;> rfl

/-- C3: when both tags of the scope are present and the zone-existence check succeeds,
`Load` returns a config with the zone tag value as zone, the value of the set-identifier
lookup as group key (absent when no tag has that key), the argument as `IsPublic`, and as
names the comma-separated segments of the dns-records value: joined with a comma they
give the value back, none of them contains a comma, and there is one more of them than
there are commas, so nothing is trimmed and no empty segment is dropped. -/
theorem Load_success {σ : Type} (c : Route53API σ) (tags : List Tag) (isPublic : Bool)
    (w : World σ) (z d : String)
    (hz : findValueFromEC2Tags tags (zoneIDKeyOf isPublic) = some z)
    (hd : findValueFromEC2Tags tags (recordsKeyOf isPublic) = some d)
    (hok : (c.GetHostedZone { Id := some z } w.store).1 = Except.ok ()) :
    ∃ config : Route53ZoneConfig,
      (Load c tags isPublic w).1 = Except.ok (some config)
      ∧ config.HostedZoneID = z
      ∧ config.SetIdentifier = findValueFromEC2Tags tags (setIdentifierKeyOf isPublic)
      ∧ ((∀ t ∈ tags, t.Key ≠ setIdentifierKeyOf isPublic) → config.SetIdentifier = none)
      ∧ config.IsPublic = isPublic
      ∧ String.intercalate "," config.DNSRecords = d
      ∧ (∀ name ∈ config.DNSRecords, ',' ∉ name.data)
      ∧ config.DNSRecords.length = d.data.count ',' + 1 := by
  refine ⟨{ HostedZoneID := z
            DNSRecords := stringsSplitComma d
            SetIdentifier := findValueFromEC2Tags tags (setIdentifierKeyOf isPublic)
            IsPublic := isPublic }, ?_, rfl, rfl, ?_, rfl, ?_, ?_, ?_⟩
  · rw [Load_both c tags isPublic w z d hz hd, hok]
  · intro h
    exact findValueFromEC2Tags_of_no_key tags _ h
  · exact intercalate_stringsSplitComma d
  · intro name hname
    simp only [stringsSplitComma, List.mem_map] at hname
    obtain ⟨seg, hseg, rfl⟩ := hname
    exact splitChars_not_mem ',' d.data seg hseg
  · simp only [stringsSplitComma, List.length_map]
    exact length_splitChars ',' d.data

/-- Instance of C3: the test case `private`. -/
theorem Load_success_witness :
    ∃ config : Route53ZoneConfig,
      (Load (mockAnswering []).api validTags false (World.fresh ())).1
        = Except.ok (some config)
      ∧ config.HostedZoneID = "PRIVATE-ZONE-ID"
      ∧ config.SetIdentifier = findValueFromEC2Tags validTags (setIdentifierKeyOf false)
      ∧ ((∀ t ∈ validTags, t.Key ≠ setIdentifierKeyOf false) → config.SetIdentifier = none)
      ∧ config.IsPublic = false
      ∧ String.intercalate "," config.DNSRecords = "private0.example.com,private1.example.com"
      ∧ (∀ name ∈ config.DNSRecords, ',' ∉ name.data)
      ∧ config.DNSRecords.length
          = "private0.example.com,private1.example.com".data.count ',' + 1 :=
  Load_success (mockAnswering []).api validTags false (World.fresh ())
    "PRIVATE-ZONE-ID" "private0.example.com,private1.example.com"
    (by decide) (by decide) (by rfl)

/-- C4: when both tags of the scope are present and the zone-existence check fails with
`e`, `Load` returns no config and exactly `e`, having made that one call. -/
theorem Load_zone_lookup_failed {σ : Type} (c : Route53API σ) (tags : List Tag)
    (isPublic : Bool) (w : World σ) (z d : String) (e : Error)
    (hz : findValueFromEC2Tags tags (zoneIDKeyOf isPublic) = some z)
    (hd : findValueFromEC2Tags tags (recordsKeyOf isPublic) = some d)
    (hfail : (c.GetHostedZone { Id := some z } w.store).1 = Except.error e) :
    (Load c tags isPublic w).1 = Except.error e
    ∧ (Load c tags isPublic w).2.calls = w.calls ++ [Call.getHostedZone { Id := some z }] := by
  rw [Load_both c tags isPublic w z d hz hd, hfail]
  exact ⟨rfl, rfl⟩

/-- Instance of C4: the test case `hosted-zone-request-error`. -/
theorem Load_zone_lookup_failed_witness :
    (Load mockZoneError.api validTags true (World.fresh ())).1
      = Except.error { msg := "someError" }
    ∧ (Load mockZoneError.api validTags true (World.fresh ())).2.calls
      = (World.fresh ()).calls ++ [Call.getHostedZone { Id := some "PUBLIC-ZONE-ID" }] :=
  Load_zone_lookup_failed mockZoneError.api validTags true (World.fresh ())
    "PUBLIC-ZONE-ID" "public0.example.com,public1.example.com" { msg := "someError" }
    (by decide) (by decide) (by rfl)

theorem length_flatten_pairs {α β : Type} (g h : α → β) (l : List α) :
    ((l.map (fun a => [g a, h a])).flatten).length = 2 * l.length := by
  induction l with
  | nil => rfl
  | cons a rest ih =>
    simp only [List.map_cons, List.flatten_cons, List.length_append, List.length_cons,
      List.length_nil, ih]
    omega

theorem getElem?_flatten_pairs {α β : Type} (g h : α → β) (l : List α) (i : Nat) :
    ((l.map (fun a => [g a, h a])).flatten)[2 * i]? = l[i]?.map g
    ∧ ((l.map (fun a => [g a, h a])).flatten)[2 * i + 1]? = l[i]?.map h := by
  induction l generalizing i with
  | nil => simp
  | cons a rest ih =>
    cases i with
    | zero => simp
    | succ j =>
      have e1 : 2 * (j + 1) = (2 * j) + 1 + 1 := by omega
      rw [e1]
      simp only [List.map_cons, List.flatten_cons, List.cons_append, List.nil_append,
        List.getElem?_cons_succ]
      exact ih j

theorem upsertLoop_eq (config : Route53ZoneConfig) (ec2Instance : Instance)
    (ipAddress : Option String) (names : List String) (changes : List Change) :
    upsertLoop config ec2Instance ipAddress names changes
      = changes ++ (names.map (fun record =>
          getChanges "UPSERT" config record ttl ec2Instance.InstanceId
            [{ Value := ipAddress }])).flatten := by
  induction names generalizing changes with
  | nil => simp [upsertLoop]
  | cons record rest ih =>
    simp only [upsertLoop, ih, List.map_cons, List.flatten_cons, List.append_assoc]


theorem MultiValueAnswer_eq (config : Route53ZoneConfig) :
    config.MultiValueAnswer = if config.SetIdentifier.isSome = true then some true else none := by
  unfold Route53ZoneConfig.MultiValueAnswer
  cases config.SetIdentifier <;> simp

theorem UpsertRecordSets_eq {σ : Type} (c : Route53API σ) (config : Route53ZoneConfig)
    (ec2Instance : Instance) (w : World σ) :
    UpsertRecordSets c config ec2Instance w
      = (match (c.ChangeResourceRecordSets
            { Changes := upsertLoop config ec2Instance
                (if config.IsPublic then ec2Instance.PublicIpAddress
                  else ec2Instance.PrivateIpAddress) config.DNSRecords []
              HostedZoneId := some config.HostedZoneID } w.store).1 with
          | Except.error err => some err
          | Except.ok _ => none,
         { store := (c.ChangeResourceRecordSets
            { Changes := upsertLoop config ec2Instance
                (if config.IsPublic then ec2Instance.PublicIpAddress
                  else ec2Instance.PrivateIpAddress) config.DNSRecords []
              HostedZoneId := some config.HostedZoneID } w.store).2
           calls := w.calls ++ [Call.changeResourceRecordSets
            { Changes := upsertLoop config ec2Instance
                (if config.IsPublic then ec2Instance.PublicIpAddress
                  else ec2Instance.PrivateIpAddress) config.DNSRecords []
              HostedZoneId := some config.HostedZoneID }] }) := by
  unfold UpsertRecordSets
  simp only [callChangeResourceRecordSets]
  split <;> rename_i heq <;> simp only [Prod.mk.injEq] at heq <;>
    obtain ⟨h1, h2⟩ := heq <;> subst h2 <;> rw [h1]

/-- C5: `UpsertRecordSets` makes exactly one remote call, a `ChangeResourceRecordSets`
on the zone of the config, and no read. Its batch has two entries per name, in the order
of the names: an `UPSERT` of a `TXT` record and an `UPSERT` of an `A` record, both with
that name, TTL 10, the group key of the config, and the multi-value flag `true` when
the group key is present and absent otherwise. The text value is the instance
identifier between double quotes, the address value the public address of the instance
when `IsPublic` and the private one otherwise. -/
theorem UpsertRecordSets_batch {σ : Type} (c : Route53API σ) (config : Route53ZoneConfig)
    (ec2Instance : Instance) (w : World σ) :
    ∃ batch : List Change,
      (UpsertRecordSets c config ec2Instance w).2.calls
        = w.calls ++ [Call.changeResourceRecordSets
            { Changes := batch, HostedZoneId := some config.HostedZoneID }]
      ∧ batch.length = 2 * config.DNSRecords.length
      ∧ ∀ (i : Nat) (name : String), config.DNSRecords[i]? = some name →
          batch[2 * i]? = some
            { Action := some "UPSERT"
              RecordSet :=
                { Name := some name
                  RecordType := some "TXT"
                  ResourceRecords := [{ Value := some ("\"" ++ ec2Instance.InstanceId ++ "\"") }]
                  TTL := some 10
                  SetIdentifier := config.SetIdentifier
                  MultiValueAnswer :=
                    if config.SetIdentifier.isSome = true then some true else none } }
          ∧ batch[2 * i + 1]? = some
            { Action := some "UPSERT"
              RecordSet :=
                { Name := some name
                  RecordType := some "A"
                  ResourceRecords :=
                    [{ Value := if config.IsPublic = true then ec2Instance.PublicIpAddress
                                else ec2Instance.PrivateIpAddress }]
                  TTL := some 10
                  SetIdentifier := config.SetIdentifier
                  MultiValueAnswer :=
                    if config.SetIdentifier.isSome = true then some true else none } } := by
  refine ⟨upsertLoop config ec2Instance
      (if config.IsPublic then ec2Instance.PublicIpAddress else ec2Instance.PrivateIpAddress)
      config.DNSRecords [], ?_, ?_, ?_⟩
  · rw [UpsertRecordSets_eq]
  · rw [upsertLoop_eq, List.nil_append]
    exact length_flatten_pairs _ _ _
  · intro i name hname
    rw [upsertLoop_eq, List.nil_append]
    have key := getElem?_flatten_pairs
      (fun record : String => (
        { Action := some "UPSERT"
          RecordSet :=
            { Name := some record
              RecordType := some "TXT"
              ResourceRecords := [{ Value := some (quoted ec2Instance.InstanceId) }]
              TTL := some ttl
              SetIdentifier := config.SetIdentifier
              MultiValueAnswer := config.MultiValueAnswer } } : Change))
      (fun record : String => (
        { Action := some "UPSERT"
          RecordSet :=
            { Name := some record
              RecordType := some "A"
              ResourceRecords :=
                [{ Value := if config.IsPublic = true then ec2Instance.PublicIpAddress
                            else ec2Instance.PrivateIpAddress }]
              TTL := some ttl
              SetIdentifier := config.SetIdentifier
              MultiValueAnswer := config.MultiValueAnswer } } : Change))
      config.DNSRecords i
    rw [hname] at key
    simp only [Option.map_some', MultiValueAnswer_eq, quoted, ttl] at key
    simp only [getChanges, MultiValueAnswer_eq, quoted, ttl]
    exact key

/-! ## The lookup `getARecordSet` -/

theorem findRecordSet_some (setIdentifier : Option String) (sets : List ResourceRecordSet)
    (r : ResourceRecordSet) (h : findRecordSet setIdentifier sets = some r) :
    r.SetIdentifier = setIdentifier
    ∧ ∃ before after, sets = before ++ r :: after
        ∧ ∀ x ∈ before, x.SetIdentifier ≠ setIdentifier := by
  induction sets with
  | nil => simp [findRecordSet] at h
  | cons x rest ih =>
    by_cases hx : x.SetIdentifier = setIdentifier
    · have hfound : findRecordSet setIdentifier (x :: rest) = some x := by
        unfold findRecordSet
        cases hs : setIdentifier with
        | none => rw [hs] at hx; simp [hx]
        | some a => rw [hs] at hx; simp [hx]
      rw [hfound] at h
      cases h
      exact ⟨hx, [], rest, rfl, by simp⟩
    · have hskip : findRecordSet setIdentifier (x :: rest) = findRecordSet setIdentifier rest := by
        conv => lhs; unfold findRecordSet
        cases hs : setIdentifier with
        | none =>
          rw [hs] at hx
          cases hxs : x.SetIdentifier with
          | none => exact absurd hxs hx
          | some b => rfl
        | some a =>
          rw [hs] at hx
          cases hxs : x.SetIdentifier with
          | none => rfl
          | some b =>
            have hab : a ≠ b := fun e => hx (by rw [hxs, e])
            simp [hab]
      rw [hskip] at h
      obtain ⟨h1, before, after, h2, h3⟩ := ih h
      refine ⟨h1, x :: before, after, by rw [h2]; rfl, ?_⟩
      intro y hy
      simp only [List.mem_cons] at hy
      rcases hy with rfl | hy
      · exact hx
      · exact h3 y hy

theorem findRecordSet_eq_none (setIdentifier : Option String) (sets : List ResourceRecordSet) :
    findRecordSet setIdentifier sets = none ↔ ∀ x ∈ sets, x.SetIdentifier ≠ setIdentifier := by
  induction sets with
  | nil => simp [findRecordSet]
  | cons x rest ih =>
    by_cases hx : x.SetIdentifier = setIdentifier
    · have hfound : findRecordSet setIdentifier (x :: rest) = some x := by
        unfold findRecordSet
        cases hs : setIdentifier with
        | none => rw [hs] at hx; simp [hx]
        | some a => rw [hs] at hx; simp [hx]
      rw [hfound]
      simp [hx]
    · have hskip : findRecordSet setIdentifier (x :: rest) = findRecordSet setIdentifier rest := by
        conv => lhs; unfold findRecordSet
        cases hs : setIdentifier with
        | none =>
          rw [hs] at hx
          cases hxs : x.SetIdentifier with
          | none => exact absurd hxs hx
          | some b => rfl
        | some a =>
          rw [hs] at hx
          cases hxs : x.SetIdentifier with
          | none => rfl
          | some b =>
            have hab : a ≠ b := fun e => hx (by rw [hxs, e])
            simp [hab]
      rw [hskip, ih]
      simp [hx]

theorem getARecordSet_eq {σ : Type} (c : Route53API σ) (hostedZoneID name : String)
    (setIdentifier : Option String) (w : World σ) :
    getARecordSet c hostedZoneID name setIdentifier w
      = (match (c.ListResourceRecordSets (listInputFor hostedZoneID name) w.store).1 with
          | Except.error err => Except.error err
          | Except.ok recordOutput =>
            match findRecordSet setIdentifier recordOutput.ResourceRecordSets with
            | some recordSet => Except.ok recordSet
            | none => Except.error (recordNotFoundError name),
         { store := (c.ListResourceRecordSets (listInputFor hostedZoneID name) w.store).2
           calls := w.calls ++ [Call.listResourceRecordSets (listInputFor hostedZoneID name)] }) := by
  unfold getARecordSet
  simp only [callListResourceRecordSets, listInputFor]
  cases hres : (c.ListResourceRecordSets
      { HostedZoneId := some hostedZoneID
        StartRecordType := some "A"
        StartRecordName := some name } w.store).1 with
  | error err => rfl
  | ok recordOutput =>
    simp only []
    cases findRecordSet setIdentifier recordOutput.ResourceRecordSets <;> rfl

/-- C6: when the list call answers with `recordOutput`, the lookup selects a record set
whose group key is the requested one (both absent, or both present and equal), namely
the first such record set of the answer; it selects one whenever the answer holds one,
and when the answer holds none it fails with the error whose message is
`Could not find A record or SetIdentifier did not match: ` followed by the requested
name. -/
theorem getARecordSet_lookup_rule {σ : Type} (c : Route53API σ) (hostedZoneID name : String)
    (setIdentifier : Option String) (w : World σ) (recordOutput : ListResourceRecordSetsOutput)
    (hlist : (c.ListResourceRecordSets
                { HostedZoneId := some hostedZoneID
                  StartRecordType := some "A"
                  StartRecordName := some name } w.store).1 = Except.ok recordOutput) :
    (∀ r, (getARecordSet c hostedZoneID name setIdentifier w).1 = Except.ok r →
        r.SetIdentifier = setIdentifier
        ∧ ∃ before after, recordOutput.ResourceRecordSets = before ++ r :: after
            ∧ ∀ x ∈ before, x.SetIdentifier ≠ setIdentifier)
    ∧ ((∃ x ∈ recordOutput.ResourceRecordSets, x.SetIdentifier = setIdentifier) →
        ∃ r, (getARecordSet c hostedZoneID name setIdentifier w).1 = Except.ok r)
    ∧ ((∀ x ∈ recordOutput.ResourceRecordSets, x.SetIdentifier ≠ setIdentifier) →
        (getARecordSet c hostedZoneID name setIdentifier w).1
          = Except.error
              { msg := "Could not find A record or SetIdentifier did not match: " ++ name }) := by
  have hlist2 : (c.ListResourceRecordSets (listInputFor hostedZoneID name) w.store).1
      = Except.ok recordOutput := hlist
  rw [getARecordSet_eq]
  simp only [hlist2]
  refine ⟨?_, ?_, ?_⟩
  · intro r hr
    cases hf : findRecordSet setIdentifier recordOutput.ResourceRecordSets with
    | none => rw [hf] at hr; cases hr
    | some r2 =>
      rw [hf] at hr
      cases hr
      exact findRecordSet_some setIdentifier _ r hf
  · intro hex
    cases hf : findRecordSet setIdentifier recordOutput.ResourceRecordSets with
    | none =>
      obtain ⟨x, hx, hxs⟩ := hex
      exact absurd hxs ((findRecordSet_eq_none setIdentifier _).1 hf x hx)
    | some r2 => exact ⟨r2, rfl⟩
  · intro hall
    rw [(findRecordSet_eq_none setIdentifier _).2 hall]
    rfl

/-- Instance of C6: the test case `found`. -/
theorem getARecordSet_lookup_rule_witness :
    (∀ r, (getARecordSet (mockAnswering [foundRecord]).api "ID" "foo.example.com"
            (some "identifier") (World.fresh ())).1 = Except.ok r →
        r.SetIdentifier = some "identifier"
        ∧ ∃ before after,
            (ListResourceRecordSetsOutput.mk [foundRecord]).ResourceRecordSets
              = before ++ r :: after
            ∧ ∀ x ∈ before, x.SetIdentifier ≠ some "identifier")
    ∧ ((∃ x ∈ (ListResourceRecordSetsOutput.mk [foundRecord]).ResourceRecordSets,
          x.SetIdentifier = some "identifier") →
        ∃ r, (getARecordSet (mockAnswering [foundRecord]).api "ID" "foo.example.com"
            (some "identifier") (World.fresh ())).1 = Except.ok r)
    ∧ ((∀ x ∈ (ListResourceRecordSetsOutput.mk [foundRecord]).ResourceRecordSets,
          x.SetIdentifier ≠ some "identifier") →
        (getARecordSet (mockAnswering [foundRecord]).api "ID" "foo.example.com"
            (some "identifier") (World.fresh ())).1
          = Except.error
              { msg := "Could not find A record or SetIdentifier did not match: "
                        ++ "foo.example.com" }) :=
  getARecordSet_lookup_rule (mockAnswering [foundRecord]).api "ID" "foo.example.com"
    (some "identifier") (World.fresh ()) { ResourceRecordSets := [foundRecord] } (by rfl)

/-- C7, the code at a failing input: the list call answers with a record set of another
name and of type `MX`; the lookup for `foo.example.com` selects it, and
`DeleteRecordSets` submits its values as the content of the `A` record of
`foo.example.com`. The lookup compares the set identifier only. -/
theorem DeleteRecordSets_reads_other_record :
    (getARecordSet (mockAnswering [mailRecord]).api "ID" "foo.example.com" none
        (World.fresh ())).1 = Except.ok mailRecord
    ∧ mailRecord.RecordType ≠ some "A"
    ∧ mailRecord.Name ≠ some "foo.example.com"
    ∧ (DeleteRecordSets (mockAnswering [mailRecord]).api fooConfig testInstance
        (World.fresh ())).2.calls
      = [ Call.listResourceRecordSets
            { HostedZoneId := some "ID"
              StartRecordType := some "A"
              StartRecordName := some "foo.example.com" },
          Call.changeResourceRecordSets
            { Changes :=
                [ { Action := some "DELETE"
                    RecordSet :=
                      { Name := some "foo.example.com"
                        RecordType := some "TXT"
                        ResourceRecords := [{ Value := some "\"i-123456789abcdef\"" }]
                        TTL := some 10
                        SetIdentifier := none
                        MultiValueAnswer := none } },
                  { Action := some "DELETE"
                    RecordSet :=
                      { Name := some "foo.example.com"
                        RecordType := some "A"
                        ResourceRecords := [{ Value := some "10 mx.example.com" }]
                        TTL := some 10
                        SetIdentifier := none
                        MultiValueAnswer := none } } ]
              HostedZoneId := some "ID" } ] := by
  refine ⟨by rfl, by decide, by decide, by rfl⟩

/-! ## `DeleteRecordSets` -/

theorem deleteLoop_eq {σ : Type} (c : Route53API σ) (config : Route53ZoneConfig)
    (ec2Instance : Instance) (names : List String) (changes : List Change) (w : World σ) :
    deleteLoop c config ec2Instance names changes w
      = (match (lookupEach c config.HostedZoneID config.SetIdentifier names w).1 with
          | Except.error err => Except.error err
          | Except.ok found =>
            Except.ok (changes ++ ((names.zip found).map (fun p =>
              getChanges "DELETE" config p.1 ttl ec2Instance.InstanceId
                p.2.ResourceRecords)).flatten),
         (lookupEach c config.HostedZoneID config.SetIdentifier names w).2) := by
  induction names generalizing changes w with
  | nil => simp [deleteLoop, lookupEach]
  | cons name rest ih =>
    unfold deleteLoop lookupEach
    rcases hg : getARecordSet c config.HostedZoneID name config.SetIdentifier w with ⟨res, w1⟩
    cases res with
    | error err => rfl
    | ok recordSet =>
      simp only []
      rw [ih]
      rcases hl : lookupEach c config.HostedZoneID config.SetIdentifier rest w1 with ⟨res2, w2⟩
      cases res2 with
      | error err => rfl
      | ok found => simp

theorem lookupEach_ok {σ : Type} (c : Route53API σ) (hostedZoneID : String)
    (setIdentifier : Option String) (names : List String) (w w1 : World σ)
    (found : List ResourceRecordSet)
    (h : lookupEach c hostedZoneID setIdentifier names w = (Except.ok found, w1)) :
    found.length = names.length
    ∧ w1.calls = w.calls
        ++ names.map (fun n => Call.listResourceRecordSets (listInputFor hostedZoneID n)) := by
  induction names generalizing w found with
  | nil =>
    simp only [lookupEach, Prod.mk.injEq, Except.ok.injEq] at h
    obtain ⟨h1, h2⟩ := h
    subst h1 h2
    simp
  | cons name rest ih =>
    unfold lookupEach at h
    have hg := getARecordSet_eq c hostedZoneID name setIdentifier w
    rcases hg2 : getARecordSet c hostedZoneID name setIdentifier w with ⟨res, wa⟩
    rw [hg2] at h hg
    cases res with
    | error err => simp at h
    | ok recordSet =>
      simp only [] at h
      rcases hl : lookupEach c hostedZoneID setIdentifier rest wa with ⟨res2, wb⟩
      rw [hl] at h
      cases res2 with
      | error err => simp at h
      | ok found2 =>
        simp only [Prod.mk.injEq, Except.ok.injEq] at h
        obtain ⟨h1, h2⟩ := h
        subst h1 h2
        obtain ⟨i1, i2⟩ := ih wa found2 hl
        have hwa : wa.calls
            = w.calls ++ [Call.listResourceRecordSets (listInputFor hostedZoneID name)] := by
          have := congrArg (fun p => p.2.calls) hg
          simpa using this
        refine ⟨by simp [i1], ?_⟩
        rw [i2, hwa]
        simp

theorem lookupEach_append_error {σ : Type} (c : Route53API σ) (hostedZoneID : String)
    (setIdentifier : Option String) (before : List String) (name : String)
    (after : List String) (w w1 w2 : World σ) (found : List ResourceRecordSet) (e : Error)
    (hbefore : lookupEach c hostedZoneID setIdentifier before w = (Except.ok found, w1))
    (hfail : getARecordSet c hostedZoneID name setIdentifier w1 = (Except.error e, w2)) :
    lookupEach c hostedZoneID setIdentifier (before ++ name :: after) w
      = (Except.error e, w2) := by
  induction before generalizing w found with
  | nil =>
    simp only [lookupEach, Prod.mk.injEq, Except.ok.injEq] at hbefore
    obtain ⟨_, h2⟩ := hbefore
    subst h2
    simp only [List.nil_append]
    unfold lookupEach
    rw [hfail]
  | cons b rest ih =>
    unfold lookupEach at hbefore
    simp only [List.cons_append]
    unfold lookupEach
    rcases hg2 : getARecordSet c hostedZoneID b setIdentifier w with ⟨res, wa⟩
    rw [hg2] at hbefore
    cases res with
    | error err => simp at hbefore
    | ok recordSet =>
      simp only [] at hbefore ⊢
      rcases hl : lookupEach c hostedZoneID setIdentifier rest wa with ⟨res2, wb⟩
      rw [hl] at hbefore
      cases res2 with
      | error err => simp at hbefore
      | ok found2 =>
        simp only [Prod.mk.injEq, Except.ok.injEq] at hbefore
        obtain ⟨_, h2⟩ := hbefore
        subst h2
        rw [ih wa found2 hl]

theorem DeleteRecordSets_eq {σ : Type} (c : Route53API σ) (config : Route53ZoneConfig)
    (ec2Instance : Instance) (w : World σ) :
    DeleteRecordSets c config ec2Instance w
      = (match lookupEach c config.HostedZoneID config.SetIdentifier config.DNSRecords w with
          | (Except.error err, w1) => (some err, w1)
          | (Except.ok found, w1) =>
            (match (c.ChangeResourceRecordSets
                { Changes := ((config.DNSRecords.zip found).map (fun p =>
                    getChanges "DELETE" config p.1 ttl ec2Instance.InstanceId
                      p.2.ResourceRecords)).flatten
                  HostedZoneId := some config.HostedZoneID } w1.store).1 with
              | Except.error err => some err
              | Except.ok _ => none,
             { store := (c.ChangeResourceRecordSets
                { Changes := ((config.DNSRecords.zip found).map (fun p =>
                    getChanges "DELETE" config p.1 ttl ec2Instance.InstanceId
                      p.2.ResourceRecords)).flatten
                  HostedZoneId := some config.HostedZoneID } w1.store).2
               calls := w1.calls ++ [Call.changeResourceRecordSets
                { Changes := ((config.DNSRecords.zip found).map (fun p =>
                    getChanges "DELETE" config p.1 ttl ec2Instance.InstanceId
                      p.2.ResourceRecords)).flatten
                  HostedZoneId := some config.HostedZoneID }] })) := by
  unfold DeleteRecordSets
  rw [deleteLoop_eq]
  rcases hl : lookupEach c config.HostedZoneID config.SetIdentifier config.DNSRecords w
    with ⟨res, w1⟩
  cases res with
  | error err => rfl
  | ok found =>
    simp only [List.nil_append, callChangeResourceRecordSets]
    cases hres : (c.ChangeResourceRecordSets
        { Changes := ((config.DNSRecords.zip found).map (fun p =>
            getChanges "DELETE" config p.1 ttl ec2Instance.InstanceId
              p.2.ResourceRecords)).flatten
          HostedZoneId := some config.HostedZoneID } w1.store).1 <;> rfl

/-- C8: when the lookups of the names before `name` succeed and the lookup of `name`
fails with `e` (the list call fails, or its answer holds no matching record set),
`DeleteRecordSets` returns `e`; the calls it has made are the list calls for the names
up to `name`, one each and in order, so no `ChangeResourceRecordSets` call is made, not
for the names whose lookup succeeded either, and the names after `name` are not looked
up. -/
theorem DeleteRecordSets_lookup_failure {σ : Type} (c : Route53API σ)
    (config : Route53ZoneConfig) (ec2Instance : Instance) (w w1 w2 : World σ)
    (before after : List String) (name : String) (found : List ResourceRecordSet)
    (e : Error)
    (hnames : config.DNSRecords = before ++ name :: after)
    (hbefore : lookupEach c config.HostedZoneID config.SetIdentifier before w
      = (Except.ok found, w1))
    (hfail : getARecordSet c config.HostedZoneID name config.SetIdentifier w1
      = (Except.error e, w2)) :
    DeleteRecordSets c config ec2Instance w = (some e, w2)
    ∧ w2.calls = w.calls ++ (before ++ [name]).map (fun n =>
        Call.listResourceRecordSets
          { HostedZoneId := some config.HostedZoneID
            StartRecordType := some "A"
            StartRecordName := some n })
    ∧ (∀ input, Call.changeResourceRecordSets input ∉ w2.calls.drop w.calls.length)
    ∧ ((c.ListResourceRecordSets
          { HostedZoneId := some config.HostedZoneID
            StartRecordType := some "A"
            StartRecordName := some name } w1.store).1 = Except.error e
       ∨ e = { msg := "Could not find A record or SetIdentifier did not match: " ++ name }) := by
  have hw1 := (lookupEach_ok c _ _ before w w1 found hbefore).2
  have hg := getARecordSet_eq c config.HostedZoneID name config.SetIdentifier w1
  rw [hfail] at hg
  have hw2 : w2.calls
      = w1.calls ++ [Call.listResourceRecordSets (listInputFor config.HostedZoneID name)] := by
    have := congrArg (fun p => p.2.calls) hg
    simpa using this
  have hcalls : w2.calls = w.calls ++ (before ++ [name]).map (fun n =>
        Call.listResourceRecordSets
          { HostedZoneId := some config.HostedZoneID
            StartRecordType := some "A"
            StartRecordName := some n }) := by
    rw [hw2, hw1]
    simp [listInputFor]
  refine ⟨?_, hcalls, ?_, ?_⟩
  · rw [DeleteRecordSets_eq, hnames,
      lookupEach_append_error c _ _ before name after w w1 w2 found e hbefore hfail]
  · intro input hmem
    rw [hcalls, List.drop_left] at hmem
    simp at hmem
  · have h1 := congrArg (fun p => p.1) hg
    simp only [listInputFor] at h1
    cases hres : (c.ListResourceRecordSets
          { HostedZoneId := some config.HostedZoneID
            StartRecordType := some "A"
            StartRecordName := some name } w1.store).1 with
    | error err =>
      rw [hres] at h1
      left
      simp only [Except.error.injEq] at h1
      rw [h1]
    | ok recordOutput =>
      rw [hres] at h1
      simp only [] at h1
      right
      cases hf : findRecordSet config.SetIdentifier recordOutput.ResourceRecordSets with
      | none =>
        rw [hf] at h1
        simp only [Except.error.injEq] at h1
        rw [h1]
        rfl
      | some r =>
        rw [hf] at h1
        simp at h1

/-- Instance of C8: the zone holds an address record for the first of three names only;
the lookup of the second fails, and the calls made are the two list calls. -/
theorem DeleteRecordSets_lookup_failure_witness :
    DeleteRecordSets (dnsStoreAPI listFrom) abcConfig testInstance (World.fresh storeWithA)
      = (some { msg := "Could not find A record or SetIdentifier did not match: "
                        ++ "b.example.com" },
         { store := storeWithA
           calls := [Call.listResourceRecordSets (listInputFor "ID" "a.example.com"),
                     Call.listResourceRecordSets (listInputFor "ID" "b.example.com")] })
    ∧ [Call.listResourceRecordSets (listInputFor "ID" "a.example.com"),
        Call.listResourceRecordSets (listInputFor "ID" "b.example.com")]
      = (World.fresh storeWithA).calls ++ (["a.example.com"] ++ ["b.example.com"]).map (fun n =>
        Call.listResourceRecordSets
          { HostedZoneId := some abcConfig.HostedZoneID
            StartRecordType := some "A"
            StartRecordName := some n })
    ∧ (∀ input, Call.changeResourceRecordSets input ∉
        [Call.listResourceRecordSets (listInputFor "ID" "a.example.com"),
          Call.listResourceRecordSets (listInputFor "ID" "b.example.com")].drop
            (World.fresh storeWithA).calls.length)
    ∧ (((dnsStoreAPI listFrom).ListResourceRecordSets
          { HostedZoneId := some abcConfig.HostedZoneID
            StartRecordType := some "A"
            StartRecordName := some "b.example.com" } storeWithA).1
          = Except.error { msg := "Could not find A record or SetIdentifier did not match: "
                        ++ "b.example.com" }
       ∨ ({ msg := "Could not find A record or SetIdentifier did not match: "
                        ++ "b.example.com" } : Error)
          = { msg := "Could not find A record or SetIdentifier did not match: "
                        ++ "b.example.com" }) :=
  DeleteRecordSets_lookup_failure (dnsStoreAPI listFrom) abcConfig testInstance
    (World.fresh storeWithA)
    { store := storeWithA
      calls := [Call.listResourceRecordSets (listInputFor "ID" "a.example.com")] }
    { store := storeWithA
      calls := [Call.listResourceRecordSets (listInputFor "ID" "a.example.com"),
                Call.listResourceRecordSets (listInputFor "ID" "b.example.com")] }
    ["a.example.com"] ["c.example.com"] "b.example.com"
    [addressRecord "a.example.com" none "10.0.0.5"]
    { msg := "Could not find A record or SetIdentifier did not match: " ++ "b.example.com" }
    (by rfl) (by rfl) (by rfl)

/-- C9: when the lookups of all the names succeed, `DeleteRecordSets` makes, after the
list calls, exactly one `ChangeResourceRecordSets` call on the zone of the config. Its
batch has two entries per name, in the order of the names: a `DELETE` of a `TXT` record
whose value is the instance identifier between double quotes, and a `DELETE` of an `A`
record whose values are those of the record set found for that name; both carry the
name, TTL 10, the group key of the config and the multi-value flag that
`UpsertRecordSets` sets for that config. -/
theorem DeleteRecordSets_batch {σ : Type} (c : Route53API σ) (config : Route53ZoneConfig)
    (ec2Instance : Instance) (w w1 : World σ) (found : List ResourceRecordSet)
    (hall : lookupEach c config.HostedZoneID config.SetIdentifier config.DNSRecords w
      = (Except.ok found, w1)) :
    ∃ batch : List Change,
      (DeleteRecordSets c config ec2Instance w).2.calls
        = w.calls
          ++ config.DNSRecords.map (fun n =>
              Call.listResourceRecordSets
                { HostedZoneId := some config.HostedZoneID
                  StartRecordType := some "A"
                  StartRecordName := some n })
          ++ [Call.changeResourceRecordSets
                { Changes := batch, HostedZoneId := some config.HostedZoneID }]
      ∧ found.length = config.DNSRecords.length
      ∧ batch.length = 2 * config.DNSRecords.length
      ∧ ∀ (i : Nat) (name : String) (r : ResourceRecordSet),
          config.DNSRecords[i]? = some name → found[i]? = some r →
          batch[2 * i]? = some
            { Action := some "DELETE"
              RecordSet :=
                { Name := some name
                  RecordType := some "TXT"
                  ResourceRecords := [{ Value := some ("\"" ++ ec2Instance.InstanceId ++ "\"") }]
                  TTL := some 10
                  SetIdentifier := config.SetIdentifier
                  MultiValueAnswer :=
                    if config.SetIdentifier.isSome = true then some true else none } }
          ∧ batch[2 * i + 1]? = some
            { Action := some "DELETE"
              RecordSet :=
                { Name := some name
                  RecordType := some "A"
                  ResourceRecords := r.ResourceRecords
                  TTL := some 10
                  SetIdentifier := config.SetIdentifier
                  MultiValueAnswer :=
                    if config.SetIdentifier.isSome = true then some true else none } } := by
  obtain ⟨hlen, hcalls⟩ := lookupEach_ok c _ _ _ w w1 found hall
  refine ⟨((config.DNSRecords.zip found).map (fun p =>
      getChanges "DELETE" config p.1 ttl ec2Instance.InstanceId
        p.2.ResourceRecords)).flatten, ?_, hlen, ?_, ?_⟩
  · rw [DeleteRecordSets_eq, hall]
    simp only [hcalls, listInputFor]
  · have := length_flatten_pairs
      (fun p : String × ResourceRecordSet => (
        { Action := some "DELETE"
          RecordSet :=
            { Name := some p.1
              RecordType := some "TXT"
              ResourceRecords := [{ Value := some (quoted ec2Instance.InstanceId) }]
              TTL := some ttl
              SetIdentifier := config.SetIdentifier
              MultiValueAnswer := config.MultiValueAnswer } } : Change))
      (fun p : String × ResourceRecordSet => (
        { Action := some "DELETE"
          RecordSet :=
            { Name := some p.1
              RecordType := some "A"
              ResourceRecords := p.2.ResourceRecords
              TTL := some ttl
              SetIdentifier := config.SetIdentifier
              MultiValueAnswer := config.MultiValueAnswer } } : Change))
      (config.DNSRecords.zip found)
    simp only [List.length_zip, hlen, Nat.min_self] at this
    simp only [getChanges]
    exact this
  · intro i name r hname hr
    have key := getElem?_flatten_pairs
      (fun p : String × ResourceRecordSet => (
        { Action := some "DELETE"
          RecordSet :=
            { Name := some p.1
              RecordType := some "TXT"
              ResourceRecords := [{ Value := some (quoted ec2Instance.InstanceId) }]
              TTL := some ttl
              SetIdentifier := config.SetIdentifier
              MultiValueAnswer := config.MultiValueAnswer } } : Change))
      (fun p : String × ResourceRecordSet => (
        { Action := some "DELETE"
          RecordSet :=
            { Name := some p.1
              RecordType := some "A"
              ResourceRecords := p.2.ResourceRecords
              TTL := some ttl
              SetIdentifier := config.SetIdentifier
              MultiValueAnswer := config.MultiValueAnswer } } : Change))
      (config.DNSRecords.zip found) i
    have hzip : (config.DNSRecords.zip found)[i]? = some (name, r) := by
      rw [List.getElem?_zip_eq_some]
      exact ⟨hname, hr⟩
    rw [hzip] at key
    simp only [Option.map_some', MultiValueAnswer_eq, quoted, ttl] at key
    simp only [getChanges, MultiValueAnswer_eq, quoted, ttl]
    exact key

/-- Instance of C9: the test case `found`. -/
theorem DeleteRecordSets_batch_witness :
    ∃ batch : List Change,
      (DeleteRecordSets (mockAnswering [foundRecord]).api fooGroupConfig testInstance
          (World.fresh ())).2.calls
        = (World.fresh ()).calls
          ++ fooGroupConfig.DNSRecords.map (fun n =>
              Call.listResourceRecordSets
                { HostedZoneId := some fooGroupConfig.HostedZoneID
                  StartRecordType := some "A"
                  StartRecordName := some n })
          ++ [Call.changeResourceRecordSets
                { Changes := batch, HostedZoneId := some fooGroupConfig.HostedZoneID }]
      ∧ [foundRecord].length = fooGroupConfig.DNSRecords.length
      ∧ batch.length = 2 * fooGroupConfig.DNSRecords.length
      ∧ ∀ (i : Nat) (name : String) (r : ResourceRecordSet),
          fooGroupConfig.DNSRecords[i]? = some name → [foundRecord][i]? = some r →
          batch[2 * i]? = some
            { Action := some "DELETE"
              RecordSet :=
                { Name := some name
                  RecordType := some "TXT"
                  ResourceRecords := [{ Value := some ("\"" ++ testInstance.InstanceId ++ "\"") }]
                  TTL := some 10
                  SetIdentifier := fooGroupConfig.SetIdentifier
                  MultiValueAnswer :=
                    if fooGroupConfig.SetIdentifier.isSome = true then some true else none } }
          ∧ batch[2 * i + 1]? = some
            { Action := some "DELETE"
              RecordSet :=
                { Name := some name
                  RecordType := some "A"
                  ResourceRecords := r.ResourceRecords
                  TTL := some 10
                  SetIdentifier := fooGroupConfig.SetIdentifier
                  MultiValueAnswer :=
                    if fooGroupConfig.SetIdentifier.isSome = true then some true else none } } :=
  DeleteRecordSets_batch (mockAnswering [foundRecord]).api fooGroupConfig testInstance
    (World.fresh ())
    { store := (), calls := [Call.listResourceRecordSets (listInputFor "ID" "foo.example.com")] }
    [foundRecord] (by rfl)

/-! ## Isolation of members that share a name -/

theorem mem_upsertRecord_of_ne_slot (zone : String) (r : ResourceRecordSet)
    (records : List (String × ResourceRecordSet)) (p : String × ResourceRecordSet)
    (hp : p ∈ records) (hslot : sameSlot p.2 r = false) :
    p ∈ upsertRecord zone r records := by
  induction records with
  | nil => simp at hp
  | cons q rest ih =>
    unfold upsertRecord
    simp only [List.mem_cons] at hp
    by_cases hq : q.1 = zone ∧ sameSlot q.2 r = true
    · rw [if_pos hq]
      rcases hp with rfl | hp
      · rw [hslot] at hq
        exact absurd hq.2 (by simp)
      · exact List.mem_cons_of_mem _ hp
    · rw [if_neg hq]
      rcases hp with rfl | hp
      · exact List.mem_cons_self _ _
      · exact List.mem_cons_of_mem _ (ih hp)

theorem mem_applyChange_of_ne_key (zone : String) (records records1 : List (String × ResourceRecordSet))
    (ch : Change) (p : String × ResourceRecordSet) (hp : p ∈ records)
    (hkey : ch.RecordSet.SetIdentifier ≠ p.2.SetIdentifier)
    (happly : applyChange zone records ch = some records1) : p ∈ records1 := by
  unfold applyChange at happly
  by_cases hu : ch.Action = some "UPSERT"
  · rw [if_pos hu] at happly
    cases happly
    apply mem_upsertRecord_of_ne_slot zone ch.RecordSet records p hp
    simp only [sameSlot, Bool.and_eq_false_imp, Bool.and_eq_true, decide_eq_true_eq,
      decide_eq_false_iff_not]
    intro _ h
    exact hkey h.symm
  · rw [if_neg hu] at happly
    by_cases hd : ch.Action = some "DELETE"
    · rw [if_pos hd] at happly
      by_cases hm : (zone, ch.RecordSet) ∈ records
      · rw [if_pos hm] at happly
        cases happly
        have hne : p ≠ (zone, ch.RecordSet) := by
          intro e
          apply hkey
          rw [e]
        exact (List.mem_erase_of_ne hne).2 hp
      · rw [if_neg hm] at happly
        cases happly
    · rw [if_neg hd] at happly
      cases happly

theorem mem_applyBatch_of_ne_key (zone : String) (batch : List Change)
    (records records1 : List (String × ResourceRecordSet))
    (p : String × ResourceRecordSet) (hp : p ∈ records)
    (hkey : ∀ ch ∈ batch, ch.RecordSet.SetIdentifier ≠ p.2.SetIdentifier)
    (happly : applyBatch zone records batch = some records1) : p ∈ records1 := by
  induction batch generalizing records with
  | nil =>
    simp only [applyBatch, Option.some.injEq] at happly
    rw [← happly]
    exact hp
  | cons ch rest ih =>
    unfold applyBatch at happly
    cases hc : applyChange zone records ch with
    | none => rw [hc] at happly; cases happly
    | some mid =>
      rw [hc] at happly
      simp only [] at happly
      have hmid := mem_applyChange_of_ne_key zone records mid ch p hp
        (hkey ch (by simp)) hc
      exact ih mid hmid (fun x hx => hkey x (by simp [hx])) happly

theorem mem_dnsStore_change_of_ne_key
    (listing : ListResourceRecordSetsInput → DNSStore → List ResourceRecordSet)
    (input : ChangeResourceRecordSetsInput) (s : DNSStore)
    (p : String × ResourceRecordSet) (hp : p ∈ s.records)
    (hkey : ∀ ch ∈ input.Changes, ch.RecordSet.SetIdentifier ≠ p.2.SetIdentifier) :
    p ∈ ((dnsStoreAPI listing).ChangeResourceRecordSets input s).2.records := by
  simp only [dnsStoreAPI]
  cases hz : input.HostedZoneId with
  | none => exact hp
  | some z =>
    simp only []
    cases hb : applyBatch z s.records input.Changes with
    | none => exact hp
    | some records1 =>
      exact mem_applyBatch_of_ne_key z input.Changes s.records records1 p hp hkey hb

theorem lookupEach_dnsStore_store
    (listing : ListResourceRecordSetsInput → DNSStore → List ResourceRecordSet)
    (hostedZoneID : String) (setIdentifier : Option String) (names : List String)
    (w : World DNSStore) :
    (lookupEach (dnsStoreAPI listing) hostedZoneID setIdentifier names w).2.store = w.store := by
  induction names generalizing w with
  | nil => rfl
  | cons name rest ih =>
    unfold lookupEach
    have hg := getARecordSet_eq (dnsStoreAPI listing) hostedZoneID name setIdentifier w
    rcases hg2 : getARecordSet (dnsStoreAPI listing) hostedZoneID name setIdentifier w
      with ⟨res, wa⟩
    rw [hg2] at hg
    have hwa : wa.store = w.store := by
      have := congrArg (fun q => q.2.store) hg
      simpa [dnsStoreAPI] using this
    cases res with
    | error err => exact hwa
    | ok recordSet =>
      simp only []
      have := ih wa
      rcases hl : lookupEach (dnsStoreAPI listing) hostedZoneID setIdentifier rest wa
        with ⟨res2, wb⟩
      rw [hl] at this
      cases res2 with
      | error err => exact this.trans hwa
      | ok found => exact this.trans hwa

theorem getChanges_setIdentifier (action : String) (config : Route53ZoneConfig)
    (name : String) (t : Int) (instanceID : String) (records : List ResourceRecord) :
    ∀ ch ∈ getChanges action config name t instanceID records,
      ch.RecordSet.SetIdentifier = config.SetIdentifier := by
  intro ch hch
  simp only [getChanges, List.mem_cons, List.mem_singleton, List.not_mem_nil, or_false] at hch
  rcases hch with rfl | rfl <;> rfl

theorem lookupEach_calls {σ : Type} (c : Route53API σ) (hostedZoneID : String)
    (setIdentifier : Option String) (names : List String) (w : World σ) :
    ∃ extra, (lookupEach c hostedZoneID setIdentifier names w).2.calls = w.calls ++ extra
      ∧ ∀ x ∈ extra, ∀ input, x ≠ Call.changeResourceRecordSets input := by
  induction names generalizing w with
  | nil => exact ⟨[], by simp [lookupEach], by simp⟩
  | cons name rest ih =>
    unfold lookupEach
    have hg := getARecordSet_eq c hostedZoneID name setIdentifier w
    rcases hg2 : getARecordSet c hostedZoneID name setIdentifier w with ⟨res, wa⟩
    rw [hg2] at hg
    have hwa : wa.calls
        = w.calls ++ [Call.listResourceRecordSets (listInputFor hostedZoneID name)] := by
      have := congrArg (fun q => q.2.calls) hg
      simpa using this
    cases res with
    | error err =>
      refine ⟨[Call.listResourceRecordSets (listInputFor hostedZoneID name)], hwa, ?_⟩
      intro x hx input
      simp only [List.mem_singleton] at hx
      rw [hx]
      simp
    | ok recordSet =>
      simp only []
      obtain ⟨extra, h1, h2⟩ := ih wa
      have hcalls : (match lookupEach c hostedZoneID setIdentifier rest wa with
          | (Except.error err, w2) => ((Except.error err, w2) :
              Except Error (List ResourceRecordSet) × World σ)
          | (Except.ok found, w2) => (Except.ok (recordSet :: found), w2)).2
          = (lookupEach c hostedZoneID setIdentifier rest wa).2 := by
        rcases lookupEach c hostedZoneID setIdentifier rest wa with ⟨res2, wb⟩
        cases res2 <;> rfl
      rw [hcalls, h1, hwa]
      refine ⟨Call.listResourceRecordSets (listInputFor hostedZoneID name) :: extra,
        by simp, ?_⟩
      intro x hx input
      simp only [List.mem_cons] at hx
      rcases hx with rfl | hx
      · simp
      · exact h2 x hx input

/-- C10: in the modelled store, whatever its list call answers, `DeleteRecordSets` with
a config of group key `g1` submits only changes that carry the group key `g1`, and a
record set of the store that carries another group key `g2` (in particular the address
record of a second member under the same name) is still in the store afterwards, with
the content it had. -/
theorem DeleteRecordSets_isolation
    (listing : ListResourceRecordSetsInput → DNSStore → List ResourceRecordSet)
    (s : DNSStore) (log : List Call) (config : Route53ZoneConfig) (ec2Instance : Instance)
    (g1 g2 : String) (zone : String) (r2 : ResourceRecordSet)
    (hg1 : config.SetIdentifier = some g1) (hne : g1 ≠ g2)
    (hmem : (zone, r2) ∈ s.records) (hg2 : r2.SetIdentifier = some g2) :
    (∀ input,
        Call.changeResourceRecordSets input ∈
          (DeleteRecordSets (dnsStoreAPI listing) config ec2Instance
            { store := s, calls := log }).2.calls.drop log.length →
        ∀ ch ∈ input.Changes, ch.RecordSet.SetIdentifier = some g1)
    ∧ (zone, r2) ∈ (DeleteRecordSets (dnsStoreAPI listing) config ec2Instance
          { store := s, calls := log }).2.store.records := by
  have hstore := lookupEach_dnsStore_store listing config.HostedZoneID config.SetIdentifier
    config.DNSRecords { store := s, calls := log }
  obtain ⟨extra, hextra, hnochange⟩ := lookupEach_calls (dnsStoreAPI listing)
    config.HostedZoneID config.SetIdentifier config.DNSRecords { store := s, calls := log }
  have hbatch : ∀ found : List ResourceRecordSet,
      ∀ ch ∈ ((config.DNSRecords.zip found).map (fun p =>
          getChanges "DELETE" config p.1 ttl ec2Instance.InstanceId
            p.2.ResourceRecords)).flatten,
        ch.RecordSet.SetIdentifier = some g1 := by
    intro found ch hch
    simp only [List.mem_flatten, List.mem_map] at hch
    obtain ⟨l, ⟨p, _, rfl⟩, hl⟩ := hch
    rw [← hg1]
    exact getChanges_setIdentifier _ _ _ _ _ _ ch hl
  rw [DeleteRecordSets_eq]
  rcases hl : lookupEach (dnsStoreAPI listing) config.HostedZoneID config.SetIdentifier
    config.DNSRecords { store := s, calls := log } with ⟨res, w1⟩
  rw [hl] at hstore hextra
  simp only [] at hstore hextra
  cases res with
  | error err =>
    simp only []
    refine ⟨?_, ?_⟩
    · intro input hin
      rw [hextra, List.drop_left] at hin
      exact absurd rfl (hnochange _ hin input)
    · rw [hstore]
      exact hmem
  | ok found =>
    simp only []
    refine ⟨?_, ?_⟩
    · intro input hin ch hch
      rw [hextra, List.append_assoc, List.drop_left] at hin
      simp only [List.mem_append, List.mem_singleton] at hin
      rcases hin with hin | hin
      · exact absurd rfl (hnochange _ hin input)
      · simp only [Call.changeResourceRecordSets.injEq] at hin
        rw [hin] at hch
        exact hbatch found ch hch
    · apply mem_dnsStore_change_of_ne_key
      · rw [hstore]
        exact hmem
      · intro ch hch
        rw [hbatch found ch hch, hg2]
        intro e
        exact hne (Option.some.inj e)

/-- Instance of C10: two members upserted under `g1` and `g2`; the first is deleted. -/
theorem DeleteRecordSets_isolation_witness :
    (∀ input,
        Call.changeResourceRecordSets input ∈
          (DeleteRecordSets (dnsStoreAPI listFrom) memberOneConfig memberOne
            { store := twoMembers, calls := [] }).2.calls.drop ([] : List Call).length →
        ∀ ch ∈ input.Changes, ch.RecordSet.SetIdentifier = some "g1")
    ∧ ("Z1", addressRecord "svc.internal.example.com" (some "g2") "10.0.0.6") ∈
        (DeleteRecordSets (dnsStoreAPI listFrom) memberOneConfig memberOne
          { store := twoMembers, calls := [] }).2.store.records :=
  DeleteRecordSets_isolation listFrom twoMembers [] memberOneConfig memberOne "g1" "g2" "Z1"
    (addressRecord "svc.internal.example.com" (some "g2") "10.0.0.6")
    (by rfl) (by decide) (by decide) (by rfl)

/-- The scenario of the instance of C10, evaluated: the two upserts leave four record
sets, the delete of the first member succeeds with one batch, and the two record sets of
the second member are what is left. -/
theorem isolation_scenario :
    twoMembers.records
      = [ ("Z1", { Name := some "svc.internal.example.com"
                   RecordType := some "TXT"
                   ResourceRecords := [{ Value := some "\"i-001\"" }]
                   TTL := some 10
                   SetIdentifier := some "g1"
                   MultiValueAnswer := some true }),
          ("Z1", addressRecord "svc.internal.example.com" (some "g1") "10.0.0.5"),
          ("Z1", { Name := some "svc.internal.example.com"
                   RecordType := some "TXT"
                   ResourceRecords := [{ Value := some "\"i-002\"" }]
                   TTL := some 10
                   SetIdentifier := some "g2"
                   MultiValueAnswer := some true }),
          ("Z1", addressRecord "svc.internal.example.com" (some "g2") "10.0.0.6") ]
    ∧ (DeleteRecordSets (dnsStoreAPI listFrom) memberOneConfig memberOne
          (World.fresh twoMembers)).1 = none
    ∧ (DeleteRecordSets (dnsStoreAPI listFrom) memberOneConfig memberOne
          (World.fresh twoMembers)).2.store.records
      = [ ("Z1", { Name := some "svc.internal.example.com"
                   RecordType := some "TXT"
                   ResourceRecords := [{ Value := some "\"i-002\"" }]
                   TTL := some 10
                   SetIdentifier := some "g2"
                   MultiValueAnswer := some true }),
          ("Z1", addressRecord "svc.internal.example.com" (some "g2") "10.0.0.6") ] := by
  refine ⟨by rfl, by rfl, by rfl⟩

/-! ## The configs that `Load` returns -/

theorem Load_ok_some {σ : Type} (c : Route53API σ) (tags : List Tag) (isPublic : Bool)
    (w : World σ) (config : Route53ZoneConfig)
    (hload : (Load c tags isPublic w).1 = Except.ok (some config)) :
    ∃ d, findValueFromEC2Tags tags (zoneIDKeyOf isPublic) = some config.HostedZoneID
      ∧ findValueFromEC2Tags tags (recordsKeyOf isPublic) = some d
      ∧ (c.GetHostedZone { Id := some config.HostedZoneID } w.store).1 = Except.ok ()
      ∧ config.DNSRecords = stringsSplitComma d := by
  cases hz : findValueFromEC2Tags tags (zoneIDKeyOf isPublic) with
  | none =>
    cases hd : findValueFromEC2Tags tags (recordsKeyOf isPublic) with
    | none =>
      have : Load c tags isPublic w = (Except.ok none, w) := by
        unfold Load
        simp only [hz, hd]
        rw [if_neg (by simp)]
      rw [this] at hload
      simp at hload
    | some d =>
      have : ∃ e, Load c tags isPublic w = (Except.error e, w) := by
        unfold Load
        simp only [hz, hd]
        rw [if_pos (by simp)]
        exact ⟨_, rfl⟩
      obtain ⟨e, he⟩ := this
      rw [he] at hload
      simp at hload
  | some z =>
    cases hd : findValueFromEC2Tags tags (recordsKeyOf isPublic) with
    | none =>
      have : ∃ e, Load c tags isPublic w = (Except.error e, w) := by
        unfold Load
        simp only [hz, hd]
        rw [if_pos (by simp)]
        exact ⟨_, rfl⟩
      obtain ⟨e, he⟩ := this
      rw [he] at hload
      simp at hload
    | some d =>
      rw [Load_both c tags isPublic w z d hz hd] at hload
      simp only [] at hload
      cases hres : (c.GetHostedZone { Id := some z } w.store).1 with
      | error err =>
        rw [hres] at hload
        simp at hload
      | ok u =>
        rw [hres] at hload
        simp only [Except.ok.injEq, Option.some.injEq] at hload
        subst hload
        exact ⟨d, rfl, rfl, hres, rfl⟩

/-- C12, the claim at a failing input: the hosted-zone-id tag has the empty string as
its value and the zone-existence check of the mock succeeds; `Load` returns a config
whose `HostedZoneID` is empty. -/
theorem Load_empty_zone_id :
    (Load (mockAnswering []).api emptyZoneIDTags false (World.fresh ())).1
      = Except.ok (some { HostedZoneID := ""
                          DNSRecords := ["a.example.com"]
                          SetIdentifier := none
                          IsPublic := false }) := by
  rfl

/-- C12, as amended: every config that `Load` returns has at least one name, and its
zone is the value of the hosted-zone-id tag, which the zone-existence check has
accepted; so it is not the empty string whenever that check rejects the empty
identifier. `Load` itself does not look at the value. -/
theorem Load_config_invariant {σ : Type} (c : Route53API σ) (tags : List Tag)
    (isPublic : Bool) (w : World σ) (config : Route53ZoneConfig)
    (hload : (Load c tags isPublic w).1 = Except.ok (some config)) :
    config.DNSRecords ≠ []
    ∧ findValueFromEC2Tags tags (zoneIDKeyOf isPublic) = some config.HostedZoneID
    ∧ (c.GetHostedZone { Id := some config.HostedZoneID } w.store).1 = Except.ok ()
    ∧ ((c.GetHostedZone { Id := some "" } w.store).1 ≠ Except.ok () →
        config.HostedZoneID ≠ "") := by
  obtain ⟨d, hz, _, hok, hnames⟩ := Load_ok_some c tags isPublic w config hload
  refine ⟨?_, hz, hok, ?_⟩
  · rw [hnames]
    simp only [stringsSplitComma, ne_eq, List.map_eq_nil_iff]
    exact splitChars_ne_nil ',' d.data
  · intro hrej hempty
    rw [hempty] at hok
    exact hrej hok

/-- Instance of C12: the test case `private`, on the modelled store, whose
zone-existence check rejects the empty identifier. -/
theorem Load_config_invariant_witness :
    privateTestConfig.DNSRecords ≠ []
    ∧ findValueFromEC2Tags validTags (zoneIDKeyOf false)
        = some privateTestConfig.HostedZoneID
    ∧ ((dnsStoreAPI listFrom).GetHostedZone
          { Id := some privateTestConfig.HostedZoneID }
          (World.fresh privateZoneStore).store).1
        = Except.ok ()
    ∧ (((dnsStoreAPI listFrom).GetHostedZone { Id := some "" }
          (World.fresh privateZoneStore).store).1
          ≠ Except.ok () →
        privateTestConfig.HostedZoneID ≠ "") :=
  Load_config_invariant (dnsStoreAPI listFrom) validTags false
    (World.fresh privateZoneStore)
    privateTestConfig (by rfl)

/-! ## The outcome of the mutation call -/

/-- C13: `UpsertRecordSets`, for every config, instance and world, returns the error of
its `ChangeResourceRecordSets` call as it is, and no error exactly when that call
succeeds; and whenever all the lookups of `DeleteRecordSets` succeed, `DeleteRecordSets`
does the same with its own `ChangeResourceRecordSets` call. -/
theorem mutation_error_propagates {σ : Type} (c : Route53API σ) (config : Route53ZoneConfig)
    (ec2Instance : Instance) (w : World σ) :
    (∃ input : ChangeResourceRecordSetsInput,
      (UpsertRecordSets c config ec2Instance w).2.calls
        = w.calls ++ [Call.changeResourceRecordSets input]
      ∧ (∀ e, (c.ChangeResourceRecordSets input w.store).1 = Except.error e →
          (UpsertRecordSets c config ec2Instance w).1 = some e)
      ∧ ((UpsertRecordSets c config ec2Instance w).1 = none
          ↔ (c.ChangeResourceRecordSets input w.store).1 = Except.ok ()))
    ∧ (∀ (w1 : World σ) (found : List ResourceRecordSet),
      lookupEach c config.HostedZoneID config.SetIdentifier config.DNSRecords w
        = (Except.ok found, w1) →
      ∃ input : ChangeResourceRecordSetsInput,
        (DeleteRecordSets c config ec2Instance w).2.calls
          = w1.calls ++ [Call.changeResourceRecordSets input]
        ∧ (∀ e, (c.ChangeResourceRecordSets input w1.store).1 = Except.error e →
            (DeleteRecordSets c config ec2Instance w).1 = some e)
        ∧ ((DeleteRecordSets c config ec2Instance w).1 = none
            ↔ (c.ChangeResourceRecordSets input w1.store).1 = Except.ok ())) := by
  constructor
  · refine ⟨{ Changes := upsertLoop config ec2Instance
                (if config.IsPublic then ec2Instance.PublicIpAddress
                  else ec2Instance.PrivateIpAddress) config.DNSRecords []
              HostedZoneId := some config.HostedZoneID }, ?_, ?_, ?_⟩
    · rw [UpsertRecordSets_eq]
    · intro e he
      rw [UpsertRecordSets_eq]
      simp only [he]
    · rw [UpsertRecordSets_eq]
      simp only []
      cases hres : (c.ChangeResourceRecordSets
        { Changes := upsertLoop config ec2Instance
            (if config.IsPublic then ec2Instance.PublicIpAddress
              else ec2Instance.PrivateIpAddress) config.DNSRecords []
          HostedZoneId := some config.HostedZoneID } w.store).1 with
      | error err => simp
      | ok u => simp
  · intro w1 found hall
    refine ⟨{ Changes := ((config.DNSRecords.zip found).map (fun p =>
                getChanges "DELETE" config p.1 ttl ec2Instance.InstanceId
                  p.2.ResourceRecords)).flatten
              HostedZoneId := some config.HostedZoneID }, ?_, ?_, ?_⟩
    · rw [DeleteRecordSets_eq, hall]
    · intro e he
      rw [DeleteRecordSets_eq, hall]
      simp only [he]
    · rw [DeleteRecordSets_eq, hall]
      simp only []
      cases hres : (c.ChangeResourceRecordSets
        { Changes := ((config.DNSRecords.zip found).map (fun p =>
            getChanges "DELETE" config p.1 ttl ec2Instance.InstanceId
              p.2.ResourceRecords)).flatten
          HostedZoneId := some config.HostedZoneID } w1.store).1 with
      | error err => simp
      | ok u => simp

/-- Instance of C13: the test case `change-error`, whose one lookup succeeds. -/
theorem mutation_error_propagates_witness :
    (∃ input : ChangeResourceRecordSetsInput,
      (UpsertRecordSets mockChangeError.api fooGroupConfig testInstance
          (World.fresh ())).2.calls
        = (World.fresh ()).calls ++ [Call.changeResourceRecordSets input]
      ∧ (∀ e, (mockChangeError.api.ChangeResourceRecordSets input (World.fresh ()).store).1
            = Except.error e →
          (UpsertRecordSets mockChangeError.api fooGroupConfig testInstance
            (World.fresh ())).1 = some e)
      ∧ ((UpsertRecordSets mockChangeError.api fooGroupConfig testInstance
            (World.fresh ())).1 = none
          ↔ (mockChangeError.api.ChangeResourceRecordSets input (World.fresh ()).store).1
            = Except.ok ()))
    ∧ (∃ input : ChangeResourceRecordSetsInput,
      (DeleteRecordSets mockChangeError.api fooGroupConfig testInstance
          (World.fresh ())).2.calls
        = (World.mk ()
            [Call.listResourceRecordSets (listInputFor "ID" "foo.example.com")]).calls
          ++ [Call.changeResourceRecordSets input]
      ∧ (∀ e, (mockChangeError.api.ChangeResourceRecordSets input
            (World.mk ()
              [Call.listResourceRecordSets (listInputFor "ID" "foo.example.com")]).store).1
            = Except.error e →
          (DeleteRecordSets mockChangeError.api fooGroupConfig testInstance
            (World.fresh ())).1 = some e)
      ∧ ((DeleteRecordSets mockChangeError.api fooGroupConfig testInstance
            (World.fresh ())).1 = none
          ↔ (mockChangeError.api.ChangeResourceRecordSets input
            (World.mk ()
              [Call.listResourceRecordSets (listInputFor "ID" "foo.example.com")]).store).1
            = Except.ok ())) :=
  ⟨(mutation_error_propagates mockChangeError.api fooGroupConfig testInstance
      (World.fresh ())).1,
   (mutation_error_propagates mockChangeError.api fooGroupConfig testInstance
      (World.fresh ())).2
      (World.mk () [Call.listResourceRecordSets (listInputFor "ID" "foo.example.com")])
      [foundRecord] (by rfl)⟩

/-- The test case `change-error`, evaluated: both operations return `changeError`. -/
theorem change_error_scenario :
    (UpsertRecordSets mockChangeError.api fooGroupConfig testInstance (World.fresh ())).1
      = some { msg := "changeError" }
    ∧ (DeleteRecordSets mockChangeError.api fooGroupConfig testInstance (World.fresh ())).1
      = some { msg := "changeError" } := by
  exact ⟨by rfl, by rfl⟩

/-- An upsert where no lookup would succeed: the list call of the mock answers with no
record set and its mutation call fails; `UpsertRecordSets` makes no list call and
returns the error of the mutation call. -/
theorem upsert_error_without_lookup :
    (lookupEach mockNothingListed.api fooGroupConfig.HostedZoneID
        fooGroupConfig.SetIdentifier fooGroupConfig.DNSRecords (World.fresh ())).1
      = Except.error
          { msg := "Could not find A record or SetIdentifier did not match: foo.example.com" }
    ∧ (UpsertRecordSets mockNothingListed.api fooGroupConfig testInstance (World.fresh ())).1
      = some { msg := "changeError" } := by
  exact ⟨by rfl, by rfl⟩

/-! ## `Load` reads the tags of its scope only -/

theorem findValueFromEC2Tags_filter (keep : String → Bool) (tags : List Tag) (key : String)
    (hkey : keep key = true) :
    findValueFromEC2Tags (tags.filter (fun t => keep t.Key)) key
      = findValueFromEC2Tags tags key := by
  induction tags with
  | nil => rfl
  | cons t rest ih =>
    by_cases ht : t.Key = key
    · have hk : keep t.Key = true := by rw [ht]; exact hkey
      simp only [List.filter_cons, hk, if_true, findValueFromEC2Tags, if_pos ht]
    · by_cases hk : keep t.Key = true
      · simp only [List.filter_cons, hk, if_true, findValueFromEC2Tags, if_neg ht, ih]
      · simp only [List.filter_cons, hk, findValueFromEC2Tags, if_neg ht]
        exact ih

theorem Load_congr {σ : Type} (c : Route53API σ) (tags1 tags2 : List Tag) (isPublic : Bool)
    (w : World σ)
    (hz : findValueFromEC2Tags tags1 (zoneIDKeyOf isPublic)
      = findValueFromEC2Tags tags2 (zoneIDKeyOf isPublic))
    (hd : findValueFromEC2Tags tags1 (recordsKeyOf isPublic)
      = findValueFromEC2Tags tags2 (recordsKeyOf isPublic))
    (hs : findValueFromEC2Tags tags1 (setIdentifierKeyOf isPublic)
      = findValueFromEC2Tags tags2 (setIdentifierKeyOf isPublic)) :
    Load c tags1 isPublic w = Load c tags2 isPublic w := by
  unfold Load
  simp only [hz, hd, hs]

theorem Load_filter {σ : Type} (c : Route53API σ) (keep : String → Bool) (tags : List Tag)
    (isPublic : Bool) (w : World σ)
    (hkeep : ∀ key, isScopeKey isPublic key = true → keep key = true) :
    Load c (tags.filter (fun t => keep t.Key)) isPublic w = Load c tags isPublic w := by
  apply Load_congr
  · exact findValueFromEC2Tags_filter keep tags _ (hkeep _ (by simp [isScopeKey]))
  · exact findValueFromEC2Tags_filter keep tags _ (hkeep _ (by simp [isScopeKey]))
  · exact findValueFromEC2Tags_filter keep tags _ (hkeep _ (by simp [isScopeKey]))

theorem isScopeKey_other_scope (isPublic : Bool) (key : String)
    (h : isScopeKey isPublic key = true) : isScopeKey (!isPublic) key = false := by
  simp only [isScopeKey, Bool.or_eq_true, decide_eq_true_eq] at h
  cases isPublic <;> rcases h with (h | h) | h <;> subst h <;> decide

/-- C16: two tag lists whose tags with one of the three keys of the selected scope are
the same, in the same order, give the same result of `Load` for that scope in the same
world, the remote call made included; and removing from a tag list every tag that has
one of the three keys of the other scope does not change the result either. -/
theorem Load_reads_scope_tags_only {σ : Type} (c : Route53API σ) (tags1 tags2 : List Tag)
    (isPublic : Bool) (w : World σ)
    (hsame : tags1.filter (fun t => isScopeKey isPublic t.Key)
      = tags2.filter (fun t => isScopeKey isPublic t.Key)) :
    Load c tags1 isPublic w = Load c tags2 isPublic w
    ∧ Load c (tags1.filter (fun t => !isScopeKey (!isPublic) t.Key)) isPublic w
      = Load c tags1 isPublic w := by
  constructor
  · rw [← Load_filter c (isScopeKey isPublic) tags1 isPublic w (fun _ h => h),
      ← Load_filter c (isScopeKey isPublic) tags2 isPublic w (fun _ h => h), hsame]
  · apply Load_filter c (fun key => !isScopeKey (!isPublic) key) tags1 isPublic w
    intro key hkey
    rw [isScopeKey_other_scope isPublic key hkey]
    rfl

/-- Instance of C16: the tags of the tests, with and without a tag of another
application and the tags of the public scope. -/
theorem Load_reads_scope_tags_only_witness :
    Load (mockAnswering []).api validTagsAndMore false (World.fresh ())
      = Load (mockAnswering []).api (validTags.drop 3) false (World.fresh ())
    ∧ Load (mockAnswering []).api
        (validTagsAndMore.filter (fun t => !isScopeKey (!false) t.Key)) false (World.fresh ())
      = Load (mockAnswering []).api validTagsAndMore false (World.fresh ()) :=
  Load_reads_scope_tags_only (mockAnswering []).api validTagsAndMore (validTags.drop 3) false
    (World.fresh ()) (by decide)

/-! ## `UpsertRecordSets` with an absent address -/

theorem mem_flatten_pairs {α β : Type} (g h : α → β) (l : List α) (b : β)
    (hb : b ∈ (l.map (fun a => [g a, h a])).flatten) : ∃ a ∈ l, b = g a ∨ b = h a := by
  simp only [List.mem_flatten, List.mem_map] at hb
  obtain ⟨pair, ⟨a, ha, rfl⟩, hmem⟩ := hb
  simp only [List.mem_cons, List.mem_singleton, List.not_mem_nil, or_false] at hmem
  exact ⟨a, ha, hmem⟩

/-- C18: when the address that the config selects (the public one when `IsPublic`, the
private one otherwise) is absent, `UpsertRecordSets` still makes its one
`ChangeResourceRecordSets` call and returns what that call returns; the batch has its
two entries per name, and every `A` entry of it carries exactly one value, which is
absent, whatever the other address of the instance is. -/
theorem UpsertRecordSets_absent_address {σ : Type} (c : Route53API σ)
    (config : Route53ZoneConfig) (ec2Instance : Instance) (w : World σ)
    (habsent : (if config.IsPublic = true then ec2Instance.PublicIpAddress
                else ec2Instance.PrivateIpAddress) = none) :
    ∃ batch : List Change,
      (UpsertRecordSets c config ec2Instance w).2.calls
        = w.calls ++ [Call.changeResourceRecordSets
            { Changes := batch, HostedZoneId := some config.HostedZoneID }]
      ∧ (UpsertRecordSets c config ec2Instance w).1
        = (match (c.ChangeResourceRecordSets
              { Changes := batch, HostedZoneId := some config.HostedZoneID } w.store).1 with
            | Except.error err => some err
            | Except.ok _ => none)
      ∧ batch.length = 2 * config.DNSRecords.length
      ∧ (∀ (i : Nat) (name : String), config.DNSRecords[i]? = some name →
          ∃ ch, batch[2 * i + 1]? = some ch
            ∧ ch.Action = some "UPSERT"
            ∧ ch.RecordSet.Name = some name
            ∧ ch.RecordSet.RecordType = some "A"
            ∧ ch.RecordSet.ResourceRecords = [{ Value := none }])
      ∧ (∀ ch ∈ batch, ch.RecordSet.RecordType = some "A" →
          ch.RecordSet.ResourceRecords = [{ Value := none }]) := by
  refine ⟨upsertLoop config ec2Instance
      (if config.IsPublic then ec2Instance.PublicIpAddress else ec2Instance.PrivateIpAddress)
      config.DNSRecords [], ?_, ?_, ?_, ?_, ?_⟩
  · rw [UpsertRecordSets_eq]
  · rw [UpsertRecordSets_eq]
  · rw [upsertLoop_eq, List.nil_append]
    exact length_flatten_pairs _ _ _
  · intro i name hname
    rw [upsertLoop_eq, List.nil_append, habsent]
    have key := (getElem?_flatten_pairs
      (fun record : String => (
        { Action := some "UPSERT"
          RecordSet :=
            { Name := some record
              RecordType := some "TXT"
              ResourceRecords := [{ Value := some (quoted ec2Instance.InstanceId) }]
              TTL := some ttl
              SetIdentifier := config.SetIdentifier
              MultiValueAnswer := config.MultiValueAnswer } } : Change))
      (fun record : String => (
        { Action := some "UPSERT"
          RecordSet :=
            { Name := some record
              RecordType := some "A"
              ResourceRecords := [{ Value := none }]
              TTL := some ttl
              SetIdentifier := config.SetIdentifier
              MultiValueAnswer := config.MultiValueAnswer } } : Change))
      config.DNSRecords i).2
    rw [hname] at key
    simp only [Option.map_some'] at key
    exact ⟨_, key, rfl, rfl, rfl, rfl⟩
  · intro ch hch htype
    rw [upsertLoop_eq, List.nil_append, habsent] at hch
    obtain ⟨record, _, hrec⟩ := mem_flatten_pairs
      (fun record : String => (
        { Action := some "UPSERT"
          RecordSet :=
            { Name := some record
              RecordType := some "TXT"
              ResourceRecords := [{ Value := some (quoted ec2Instance.InstanceId) }]
              TTL := some ttl
              SetIdentifier := config.SetIdentifier
              MultiValueAnswer := config.MultiValueAnswer } } : Change))
      (fun record : String => (
        { Action := some "UPSERT"
          RecordSet :=
            { Name := some record
              RecordType := some "A"
              ResourceRecords := [{ Value := none }]
              TTL := some ttl
              SetIdentifier := config.SetIdentifier
              MultiValueAnswer := config.MultiValueAnswer } } : Change))
      config.DNSRecords ch hch
    rcases hrec with rfl | rfl
    · simp at htype
    · rfl

/-- Instance of C18: a config of the public scope and an instance that has a private
address only. -/
theorem UpsertRecordSets_absent_address_witness :
    ∃ batch : List Change,
      (UpsertRecordSets (mockAnswering []).api publicTwoNames privateOnlyInstance
          (World.fresh ())).2.calls
        = (World.fresh ()).calls ++ [Call.changeResourceRecordSets
            { Changes := batch, HostedZoneId := some publicTwoNames.HostedZoneID }]
      ∧ (UpsertRecordSets (mockAnswering []).api publicTwoNames privateOnlyInstance
          (World.fresh ())).1
        = (match ((mockAnswering []).api.ChangeResourceRecordSets
              { Changes := batch, HostedZoneId := some publicTwoNames.HostedZoneID }
              (World.fresh ()).store).1 with
            | Except.error err => some err
            | Except.ok _ => none)
      ∧ batch.length = 2 * publicTwoNames.DNSRecords.length
      ∧ (∀ (i : Nat) (name : String), publicTwoNames.DNSRecords[i]? = some name →
          ∃ ch, batch[2 * i + 1]? = some ch
            ∧ ch.Action = some "UPSERT"
            ∧ ch.RecordSet.Name = some name
            ∧ ch.RecordSet.RecordType = some "A"
            ∧ ch.RecordSet.ResourceRecords = [{ Value := none }])
      ∧ (∀ ch ∈ batch, ch.RecordSet.RecordType = some "A" →
          ch.RecordSet.ResourceRecords = [{ Value := none }]) :=
  UpsertRecordSets_absent_address (mockAnswering []).api publicTwoNames privateOnlyInstance
    (World.fresh ()) (by rfl)

/-! ## `main.go` -/

theorem appendZoneConfig_ignores_isPublic {σ : Type} (c : Route53API σ)
    (zoneConfigs : List Route53ZoneConfig) (tags : List Tag) (isPublic : Bool) (w : World σ) :
    appendZoneConfig c zoneConfigs tags isPublic w
      = appendZoneConfig c zoneConfigs tags false w := rfl

/-- C14, the code at failing inputs: for the tags of the tests, `Load` with `true` gives
the public config, but `appendZoneConfig` with `true` appends the private one, so the
list resolved for an instance with the tags of both scopes is the private config
twice; for an instance with the tags of the public scope only, the list is empty. -/
theorem appendZoneConfig_loads_private :
    (Load (mockAnswering []).api validTags true (World.fresh ())).1
      = Except.ok (some publicTestConfig)
    ∧ (appendZoneConfig (mockAnswering []).api [] validTags true (World.fresh ())).1
      = Except.ok [privateTestConfig]
    ∧ (resolveZoneConfigs (mockAnswering []).api validTags (World.fresh ())).1
      = Except.ok [privateTestConfig, privateTestConfig]
    ∧ (Load (mockAnswering []).api publicOnlyTags true (World.fresh ())).1
      = Except.ok (some publicTestConfig)
    ∧ (resolveZoneConfigs (mockAnswering []).api publicOnlyTags (World.fresh ())).1
      = Except.ok [] := by
  refine ⟨by rfl, by rfl, by rfl, by rfl, by rfl⟩

/-- C17, the code at failing inputs: `DescribeInstances` succeeds with no reservation,
or with a first reservation without instances; `lifecycleEventHandler` does not return
the error `failed to find an EC2 instance` but panics on the index `[0]`, having made
no Route 53 call. The guard tests `len(...) < 0`, which no length satisfies. -/
theorem lifecycleEventHandler_indexes_empty :
    (lifecycleEventHandler (mockAnswering []).api
        (servicesAnswering (Except.ok { Reservations := [] }) launchEvent) launchEvent
        (World.fresh ())).1
      = Run.panicked "index out of range [0] with length 0"
    ∧ (lifecycleEventHandler (mockAnswering []).api
        (servicesAnswering (Except.ok { Reservations := [{ Instances := [] }] }) launchEvent)
        launchEvent (World.fresh ())).1
      = Run.panicked "index out of range [0] with length 0"
    ∧ (lifecycleEventHandler (mockAnswering []).api
        (servicesAnswering (Except.ok { Reservations := [] }) launchEvent) launchEvent
        (World.fresh ())).1
      ≠ Run.returned (some { msg := "failed to find an EC2 instance" }) := by
  refine ⟨by rfl, by rfl, by decide⟩

/-- Whenever `DescribeInstances` succeeds with no reservation, or with a first
reservation without instances, `lifecycleEventHandler` panics, for every client, event
and world. -/
theorem lifecycleEventHandler_panics_of_empty {σ : Type} (c : Route53API σ) (svc : Services)
    (event : asgLifecycleEventDetail) (w : World σ) (resp : DescribeInstancesOutput)
    (hresp : svc.DescribeInstances [event.EC2InstanceID] = Except.ok resp)
    (hempty : resp.Reservations = [] ∨ ∃ rest, resp.Reservations = { Instances := [] } :: rest) :
    lifecycleEventHandler c svc event w
      = (Run.panicked "index out of range [0] with length 0", w) := by
  unfold lifecycleEventHandler
  rw [hresp]
  simp only [Nat.not_lt_zero, if_false]
  rcases hempty with h | ⟨rest, h⟩
  · rw [h]
  · rw [h]

/-- C15, the code at a failing input: the event is a launch, `DescribeInstances` succeeds
with no reservation; `Handler` panics inside `lifecycleEventHandler` and sends no
lifecycle result at all, neither `ABANDON` nor `CONTINUE`. -/
theorem Handler_sends_nothing_on_panic :
    (Handler (mockAnswering []).api
        (servicesAnswering (Except.ok { Reservations := [] }) launchEvent) oneMessage
        (World.fresh ())).outcome
      = Run.panicked "index out of range [0] with length 0"
    ∧ (Handler (mockAnswering []).api
        (servicesAnswering (Except.ok { Reservations := [] }) launchEvent) oneMessage
        (World.fresh ())).signals = [] := by
  exact ⟨by rfl, by rfl⟩

/-- What `Handler` does when the reconciliation returns: for a launch or a termination
it sends exactly one lifecycle result, `ABANDON` when the transition is the launch and
the reconciliation returned an error, which `Handler` then returns, and `CONTINUE`
otherwise, in which case `Handler` returns what `CompleteLifecycleAction` returns. -/
theorem Handler_signal_of_returned {σ : Type} (c : Route53API σ) (svc : Services)
    (record : SNSEventRecord) (others : List SNSEventRecord) (event : asgLifecycleEventDetail)
    (w w1 : World σ) (err : Option Error)
    (hparse : svc.jsonUnmarshal record.Message = Except.ok event)
    (htransition : event.LifecycleTransition = "autoscaling:EC2_INSTANCE_LAUNCHING"
      ∨ event.LifecycleTransition = "autoscaling:EC2_INSTANCE_TERMINATING")
    (hrun : lifecycleEventHandler c svc event w = (Run.returned err, w1)) :
    (Handler c svc { Records := record :: others } w).signals
      = [{ InstanceId := some event.EC2InstanceID
           LifecycleHookName := some event.LifecycleHookName
           LifecycleActionToken := some event.LifecycleActionToken
           AutoScalingGroupName := some event.AutoScalingGroupName
           LifecycleActionResult :=
             some (if err ≠ none
                    ∧ event.LifecycleTransition = "autoscaling:EC2_INSTANCE_LAUNCHING"
                  then "ABANDON" else "CONTINUE") }]
    ∧ (Handler c svc { Records := record :: others } w).outcome
      = Run.returned
          (if err ≠ none ∧ event.LifecycleTransition = "autoscaling:EC2_INSTANCE_LAUNCHING"
            then err
            else svc.CompleteLifecycleAction
              { InstanceId := some event.EC2InstanceID
                LifecycleHookName := some event.LifecycleHookName
                LifecycleActionToken := some event.LifecycleActionToken
                AutoScalingGroupName := some event.AutoScalingGroupName
                LifecycleActionResult := some "CONTINUE" })
    ∧ (Handler c svc { Records := record :: others } w).world = w1 := by
  have hguard : ¬ (event.LifecycleTransition ≠ "autoscaling:EC2_INSTANCE_LAUNCHING"
      ∧ event.LifecycleTransition ≠ "autoscaling:EC2_INSTANCE_TERMINATING") := by
    rintro ⟨h1, h2⟩
    rcases htransition with h | h
    · exact h1 h
    · exact h2 h
  unfold Handler
  simp only [hparse, if_neg hguard, hrun]
  by_cases hab : err ≠ none
      ∧ event.LifecycleTransition = "autoscaling:EC2_INSTANCE_LAUNCHING"
  · simp only [if_pos hab, completeLifecycleAction]
    exact ⟨trivial, trivial, trivial⟩
  · simp only [if_neg hab, completeLifecycleAction]
    cases hsig : svc.CompleteLifecycleAction
              { InstanceId := some event.EC2InstanceID
                LifecycleHookName := some event.LifecycleHookName
                LifecycleActionToken := some event.LifecycleActionToken
                AutoScalingGroupName := some event.AutoScalingGroupName
                LifecycleActionResult := some "CONTINUE" } <;> exact ⟨rfl, rfl, rfl⟩

/-! ## Upsert followed by delete -/

theorem upsertRecord_of_free (zone : String) (r : ResourceRecordSet)
    (records : List (String × ResourceRecordSet))
    (hfree : ∀ p ∈ records, p.1 = zone → sameSlot p.2 r = false) :
    upsertRecord zone r records = records ++ [(zone, r)] := by
  induction records with
  | nil => rfl
  | cons p rest ih =>
    unfold upsertRecord
    have hp : ¬ (p.1 = zone ∧ sameSlot p.2 r = true) := by
      rintro ⟨h1, h2⟩
      rw [hfree p (by simp) h1] at h2
      exact Bool.noConfusion h2
    rw [if_neg hp, ih (fun q hq => hfree q (by simp [hq]))]
    rfl

theorem applyBatch_upserts (zone : String) (recs : List ResourceRecordSet)
    (records : List (String × ResourceRecordSet))
    (hpair : recs.Pairwise (fun a b => sameSlot a b = false))
    (hfree : ∀ p ∈ records, p.1 = zone → ∀ r ∈ recs, sameSlot p.2 r = false) :
    applyBatch zone records (recs.map (fun r => { Action := some "UPSERT", RecordSet := r }))
      = some (records ++ recs.map (fun r => (zone, r))) := by
  induction recs generalizing records with
  | nil => simp [applyBatch]
  | cons r rest ih =>
    rw [List.pairwise_cons] at hpair
    simp only [List.map_cons, applyBatch, applyChange, if_true]
    rw [upsertRecord_of_free zone r records (fun p hp hz => hfree p hp hz r (by simp))]
    rw [ih (records ++ [(zone, r)]) hpair.2]
    · simp
    · intro p hp hz x hx
      simp only [List.mem_append, List.mem_singleton] at hp
      rcases hp with hp | rfl
      · exact hfree p hp hz x (by simp [hx])
      · exact hpair.1 x hx

theorem applyBatch_deletes (zone : String) (recs : List ResourceRecordSet)
    (records : List (String × ResourceRecordSet))
    (hnodup : recs.Nodup) (hnew : ∀ r ∈ recs, (zone, r) ∉ records) :
    applyBatch zone (records ++ recs.map (fun r => (zone, r)))
        (recs.map (fun r => { Action := some "DELETE", RecordSet := r }))
      = some records := by
  induction recs with
  | nil => simp [applyBatch]
  | cons r rest ih =>
    rw [List.nodup_cons] at hnodup
    have hne : (some "DELETE" : Option String) ≠ some "UPSERT" := by decide
    have hmem : (zone, r) ∈ records ++ (zone, r) :: rest.map (fun r => (zone, r)) := by simp
    simp only [List.map_cons, applyBatch, applyChange, if_neg hne, if_true, if_pos hmem]
    rw [List.erase_append_right _ (hnew r (by simp)), List.erase_cons_head]
    exact ih hnodup.2 (fun x hx => hnew x (by simp [hx]))

theorem recordSetsFor_cons (config : Route53ZoneConfig) (instanceID : String)
    (rr : List ResourceRecord) (name : String) (rest : List String) :
    recordSetsFor config instanceID rr (name :: rest)
      = { Name := some name
          RecordType := some "TXT"
          ResourceRecords := [{ Value := some (quoted instanceID) }]
          TTL := some ttl
          SetIdentifier := config.SetIdentifier
          MultiValueAnswer := config.MultiValueAnswer }
        :: { Name := some name
             RecordType := some "A"
             ResourceRecords := rr
             TTL := some ttl
             SetIdentifier := config.SetIdentifier
             MultiValueAnswer := config.MultiValueAnswer }
        :: recordSetsFor config instanceID rr rest := by
  simp [recordSetsFor, getChanges]

theorem changes_eq_map_recordSetsFor (action : String) (config : Route53ZoneConfig)
    (instanceID : String) (rr : List ResourceRecord) (names : List String) :
    (names.map (fun name => getChanges action config name ttl instanceID rr)).flatten
      = (recordSetsFor config instanceID rr names).map
          (fun r => { Action := some action, RecordSet := r }) := by
  induction names with
  | nil => simp [recordSetsFor]
  | cons name rest ih =>
    rw [recordSetsFor_cons, List.map_cons, List.flatten_cons, ih]
    simp [getChanges]

theorem mem_recordSetsFor (config : Route53ZoneConfig) (instanceID : String)
    (rr : List ResourceRecord) (names : List String) (r : ResourceRecordSet)
    (hr : r ∈ recordSetsFor config instanceID rr names) :
    ∃ name ∈ names, r.Name = some name ∧ r.SetIdentifier = config.SetIdentifier
      ∧ (r.RecordType = some "TXT"
          ∨ r = { Name := some name
                  RecordType := some "A"
                  ResourceRecords := rr
                  TTL := some ttl
                  SetIdentifier := config.SetIdentifier
                  MultiValueAnswer := config.MultiValueAnswer }) := by
  induction names with
  | nil => simp [recordSetsFor] at hr
  | cons name rest ih =>
    rw [recordSetsFor_cons] at hr
    simp only [List.mem_cons] at hr
    rcases hr with rfl | rfl | hr
    · exact ⟨name, by simp, rfl, rfl, Or.inl rfl⟩
    · exact ⟨name, by simp, rfl, rfl, Or.inr rfl⟩
    · obtain ⟨n, hn, h⟩ := ih hr
      exact ⟨n, by simp [hn], h⟩

theorem sameSlot_eq_false_of_name (a b : ResourceRecordSet) (h : a.Name ≠ b.Name) :
    sameSlot a b = false := by
  simp [sameSlot, h]

theorem sameSlot_self (a : ResourceRecordSet) : sameSlot a a = true := by
  simp [sameSlot]

theorem pairwise_recordSetsFor (config : Route53ZoneConfig) (instanceID : String)
    (rr : List ResourceRecord) (names : List String) (hnodup : names.Nodup) :
    (recordSetsFor config instanceID rr names).Pairwise (fun a b => sameSlot a b = false) := by
  induction names with
  | nil => simp [recordSetsFor]
  | cons name rest ih =>
    rw [List.nodup_cons] at hnodup
    rw [recordSetsFor_cons]
    have hother : ∀ x ∈ recordSetsFor config instanceID rr rest, x.Name ≠ some name := by
      intro x hx hname
      obtain ⟨n, hn, hxn, _⟩ := mem_recordSetsFor config instanceID rr rest x hx
      rw [hxn] at hname
      exact hnodup.1 (by rw [← Option.some.inj hname]; exact hn)
    refine List.Pairwise.cons ?_ (List.Pairwise.cons ?_ (ih hnodup.2))
    · intro x hx
      simp only [List.mem_cons] at hx
      rcases hx with rfl | hx
      · simp [sameSlot]
      · exact sameSlot_eq_false_of_name _ _ (fun e => hother x hx e.symm)
    · intro x hx
      exact sameSlot_eq_false_of_name _ _ (fun e => hother x hx e.symm)

theorem nodup_recordSetsFor (config : Route53ZoneConfig) (instanceID : String)
    (rr : List ResourceRecord) (names : List String) (hnodup : names.Nodup) :
    (recordSetsFor config instanceID rr names).Nodup := by
  refine (pairwise_recordSetsFor config instanceID rr names hnodup).imp ?_
  intro a b hab e
  rw [e, sameSlot_self] at hab
  exact Bool.noConfusion hab

theorem findRecordSet_cons_of_eq (setIdentifier : Option String) (x : ResourceRecordSet)
    (rest : List ResourceRecordSet) (hx : x.SetIdentifier = setIdentifier) :
    findRecordSet setIdentifier (x :: rest) = some x := by
  unfold findRecordSet
  cases hs : setIdentifier with
  | none => rw [hs] at hx; simp [hx]
  | some a => rw [hs] at hx; simp [hx]

theorem findRecordSet_cons_of_ne (setIdentifier : Option String) (x : ResourceRecordSet)
    (rest : List ResourceRecordSet) (hx : x.SetIdentifier ≠ setIdentifier) :
    findRecordSet setIdentifier (x :: rest) = findRecordSet setIdentifier rest := by
  conv => lhs; unfold findRecordSet
  cases hs : setIdentifier with
  | none =>
    rw [hs] at hx
    cases hxs : x.SetIdentifier with
    | none => exact absurd hxs hx
    | some b => rfl
  | some a =>
    rw [hs] at hx
    cases hxs : x.SetIdentifier with
    | none => rfl
    | some b =>
      have hab : a ≠ b := fun e => hx (by rw [hxs, e])
      simp [hab]

theorem findRecordSet_of_unique (setIdentifier : Option String) (target : ResourceRecordSet)
    (sets others : List ResourceRecordSet) (hmem : target ∈ sets)
    (hunique : ∀ x ∈ sets, x.SetIdentifier = setIdentifier → x = target)
    (htarget : target.SetIdentifier = setIdentifier) :
    findRecordSet setIdentifier (sets ++ others) = some target := by
  induction sets with
  | nil => simp at hmem
  | cons x rest ih =>
    by_cases hx : x.SetIdentifier = setIdentifier
    · rw [List.cons_append, findRecordSet_cons_of_eq setIdentifier x _ hx,
        hunique x (by simp) hx]
    · rw [List.cons_append, findRecordSet_cons_of_ne setIdentifier x _ hx]
      apply ih
      · simp only [List.mem_cons] at hmem
        rcases hmem with rfl | hmem
        · exact absurd htarget hx
        · exact hmem
      · exact fun y hy => hunique y (by simp [hy])

/-- With the listing `listNameTypeFirst`, the lookup finds the address record set of the
requested name and group key whenever the zone holds it and no other address record set
of that name and group key. -/
theorem findRecordSet_listNameTypeFirst (s : DNSStore) (zone name : String)
    (setIdentifier : Option String) (target : ResourceRecordSet)
    (hmem : (zone, target) ∈ s.records)
    (hname : target.Name = some name) (htype : target.RecordType = some "A")
    (hkey : target.SetIdentifier = setIdentifier)
    (hunique : ∀ x, (zone, x) ∈ s.records → x.Name = some name → x.RecordType = some "A" →
      x.SetIdentifier = setIdentifier → x = target) :
    findRecordSet setIdentifier (listNameTypeFirst (listInputFor zone name) s)
      = some target := by
  unfold listNameTypeFirst
  apply findRecordSet_of_unique
  · simp only [listInputFor, List.mem_filter, List.mem_map, Bool.and_eq_true,
      decide_eq_true_eq]
    exact ⟨⟨(zone, target), ⟨hmem, rfl⟩, rfl⟩, hname, htype⟩
  · intro x hx hxkey
    simp only [listInputFor, List.mem_filter, List.mem_map, Bool.and_eq_true,
      decide_eq_true_eq] at hx
    obtain ⟨⟨p, ⟨hp, hz⟩, rfl⟩, hxn, hxt⟩ := hx
    have hpz : p = (zone, p.2) := by
      rw [← Option.some.inj hz]
    rw [hpz] at hp
    exact hunique p.2 hp hxn hxt hxkey
  · exact hkey

theorem zip_map_self {α β γ : Type} (f : α → β) (g : α × β → γ) (l : List α) :
    (l.zip (l.map f)).map g = l.map (fun a => g (a, f a)) := by
  induction l with
  | nil => rfl
  | cons a rest ih => simp [ih]

theorem lookupEach_listNameTypeFirst (zone : String) (setIdentifier : Option String)
    (f : String → ResourceRecordSet) (names : List String) (w : World DNSStore)
    (hfound : ∀ name ∈ names,
      findRecordSet setIdentifier (listNameTypeFirst (listInputFor zone name) w.store)
        = some (f name)) :
    ∃ w1, lookupEach (dnsStoreAPI listNameTypeFirst) zone setIdentifier names w
        = (Except.ok (names.map f), w1)
      ∧ w1.store = w.store := by
  induction names generalizing w with
  | nil => exact ⟨w, rfl, rfl⟩
  | cons name rest ih =>
    have hg := getARecordSet_eq (dnsStoreAPI listNameTypeFirst) zone name setIdentifier w
    have hlist : ((dnsStoreAPI listNameTypeFirst).ListResourceRecordSets
        (listInputFor zone name) w.store)
        = (Except.ok { ResourceRecordSets := listNameTypeFirst (listInputFor zone name) w.store },
            w.store) := rfl
    rw [hlist] at hg
    simp only [hfound name (by simp)] at hg
    obtain ⟨w2, h2, hs2⟩ := ih
      { store := w.store
        calls := w.calls ++ [Call.listResourceRecordSets (listInputFor zone name)] }
      (fun n hn => hfound n (by simp [hn]))
    refine ⟨w2, ?_, hs2⟩
    unfold lookupEach
    rw [hg]
    simp only []
    rw [h2]
    rfl

theorem mem_aRecord_recordSetsFor (config : Route53ZoneConfig) (instanceID : String)
    (rr : List ResourceRecord) (names : List String) (name : String) (hname : name ∈ names) :
    ({ Name := some name
       RecordType := some "A"
       ResourceRecords := rr
       TTL := some ttl
       SetIdentifier := config.SetIdentifier
       MultiValueAnswer := config.MultiValueAnswer } : ResourceRecordSet)
      ∈ recordSetsFor config instanceID rr names := by
  induction names with
  | nil => simp at hname
  | cons n rest ih =>
    rw [recordSetsFor_cons]
    simp only [List.mem_cons] at hname
    rcases hname with rfl | hname
    · simp
    · exact List.mem_cons_of_mem _ (List.mem_cons_of_mem _ (ih hname))

theorem sameSlot_free_of_store (s : DNSStore) (config : Route53ZoneConfig)
    (instanceID : String) (rr : List ResourceRecord)
    (hnokey : config.SetIdentifier = none)
    (hfree : ∀ p ∈ s.records, p.1 = config.HostedZoneID → ∀ name ∈ config.DNSRecords,
      p.2.Name = some name → p.2.SetIdentifier = none →
      p.2.RecordType ≠ some "A" ∧ p.2.RecordType ≠ some "TXT") :
    ∀ p ∈ s.records, p.1 = config.HostedZoneID →
      ∀ r ∈ recordSetsFor config instanceID rr config.DNSRecords, sameSlot p.2 r = false := by
  intro p hp hz r hr
  obtain ⟨name, hname, hrn, hrk, hrt⟩ := mem_recordSetsFor config instanceID rr _ r hr
  cases hslot : sameSlot p.2 r with
  | false => rfl
  | true =>
    exfalso
    simp only [sameSlot, Bool.and_eq_true, decide_eq_true_eq] at hslot
    obtain ⟨⟨h1, h2⟩, h3⟩ := hslot
    have hf := hfree p hp hz name hname (by rw [h1, hrn]) (by rw [h3, hrk, hnokey])
    rcases hrt with hrt | hrt
    · exact hf.2 (by rw [h2, hrt])
    · exact hf.1 (by rw [h2, hrt])

theorem dnsStore_change
    (listing : ListResourceRecordSetsInput → DNSStore → List ResourceRecordSet)
    (changes : List Change) (zone : String) (s : DNSStore)
    (records1 : List (String × ResourceRecordSet))
    (hbatch : applyBatch zone s.records changes = some records1) :
    (dnsStoreAPI listing).ChangeResourceRecordSets
        { Changes := changes, HostedZoneId := some zone } s
      = (Except.ok (), { zones := s.zones, records := records1 }) := by
  simp only [dnsStoreAPI, hbatch]

theorem UpsertRecordSets_dnsStore
    (listing : ListResourceRecordSetsInput → DNSStore → List ResourceRecordSet)
    (s : DNSStore) (config : Route53ZoneConfig) (ec2Instance : Instance) (w : World DNSStore)
    (hw : w.store = s)
    (hnokey : config.SetIdentifier = none)
    (hnodup : config.DNSRecords.Nodup)
    (hfree : ∀ p ∈ s.records, p.1 = config.HostedZoneID → ∀ name ∈ config.DNSRecords,
      p.2.Name = some name → p.2.SetIdentifier = none →
      p.2.RecordType ≠ some "A" ∧ p.2.RecordType ≠ some "TXT") :
    (UpsertRecordSets (dnsStoreAPI listing) config ec2Instance w).1 = none
    ∧ (UpsertRecordSets (dnsStoreAPI listing) config ec2Instance w).2.store
      = { zones := s.zones
          records := s.records ++
            (recordSetsFor config ec2Instance.InstanceId
              [{ Value := if config.IsPublic = true then ec2Instance.PublicIpAddress
                          else ec2Instance.PrivateIpAddress }] config.DNSRecords).map
              (fun r => (config.HostedZoneID, r)) } := by
  have hbatch := applyBatch_upserts config.HostedZoneID
    (recordSetsFor config ec2Instance.InstanceId
      [{ Value := if config.IsPublic = true then ec2Instance.PublicIpAddress
                  else ec2Instance.PrivateIpAddress }] config.DNSRecords)
    s.records (pairwise_recordSetsFor _ _ _ _ hnodup)
    (sameSlot_free_of_store s config _ _ hnokey hfree)
  rw [← changes_eq_map_recordSetsFor] at hbatch
  rw [UpsertRecordSets_eq, upsertLoop_eq, List.nil_append, hw,
    dnsStore_change listing _ _ s _ hbatch]
  exact ⟨rfl, rfl⟩

theorem DeleteRecordSets_dnsStore (s : DNSStore) (config : Route53ZoneConfig)
    (ec2Instance : Instance) (rr : List ResourceRecord) (w : World DNSStore)
    (hw : w.store
      = { zones := s.zones
          records := s.records ++
            (recordSetsFor config ec2Instance.InstanceId rr config.DNSRecords).map
              (fun r => (config.HostedZoneID, r)) })
    (hnokey : config.SetIdentifier = none)
    (hnodup : config.DNSRecords.Nodup)
    (hfree : ∀ p ∈ s.records, p.1 = config.HostedZoneID → ∀ name ∈ config.DNSRecords,
      p.2.Name = some name → p.2.SetIdentifier = none →
      p.2.RecordType ≠ some "A" ∧ p.2.RecordType ≠ some "TXT") :
    (DeleteRecordSets (dnsStoreAPI listNameTypeFirst) config ec2Instance w).1 = none
    ∧ (DeleteRecordSets (dnsStoreAPI listNameTypeFirst) config ec2Instance w).2.store = s := by
  have hslot := sameSlot_free_of_store s config ec2Instance.InstanceId rr hnokey hfree
  have hnew : ∀ r ∈ recordSetsFor config ec2Instance.InstanceId rr config.DNSRecords,
      (config.HostedZoneID, r) ∉ s.records := by
    intro r hr hmem
    have := hslot (config.HostedZoneID, r) hmem rfl r hr
    rw [sameSlot_self] at this
    exact Bool.noConfusion this
  have hfound : ∀ name ∈ config.DNSRecords,
      findRecordSet config.SetIdentifier
          (listNameTypeFirst (listInputFor config.HostedZoneID name) w.store)
        = some { Name := some name
                 RecordType := some "A"
                 ResourceRecords := rr
                 TTL := some ttl
                 SetIdentifier := config.SetIdentifier
                 MultiValueAnswer := config.MultiValueAnswer } := by
    intro name hname
    apply findRecordSet_listNameTypeFirst
    · rw [hw]
      simp only [List.mem_append, List.mem_map]
      right
      exact ⟨_, mem_aRecord_recordSetsFor config _ rr _ name hname, rfl⟩
    · rfl
    · rfl
    · rfl
    · intro x hx hxn hxt hxk
      rw [hw] at hx
      simp only [List.mem_append, List.mem_map] at hx
      rcases hx with hx | ⟨r, hr, hrx⟩
      · exact absurd hxt (hfree _ hx rfl name hname hxn (by rw [hxk, hnokey])).1
      · simp only [Prod.mk.injEq, true_and] at hrx
        subst hrx
        obtain ⟨n, _, hrn, _, hrt⟩ := mem_recordSetsFor config _ rr _ r hr
        rcases hrt with hrt | hrt
        · rw [hrt] at hxt
          simp at hxt
        · rw [hrn] at hxn
          rw [hrt, Option.some.inj hxn]
  obtain ⟨w1, hl, hw1⟩ := lookupEach_listNameTypeFirst config.HostedZoneID
    config.SetIdentifier _ config.DNSRecords w hfound
  have hbatch : applyBatch config.HostedZoneID w1.store.records
      (((config.DNSRecords.zip (config.DNSRecords.map (fun name =>
          ({ Name := some name
             RecordType := some "A"
             ResourceRecords := rr
             TTL := some ttl
             SetIdentifier := config.SetIdentifier
             MultiValueAnswer := config.MultiValueAnswer } : ResourceRecordSet)))).map
        (fun p => getChanges "DELETE" config p.1 ttl ec2Instance.InstanceId
          p.2.ResourceRecords)).flatten)
      = some s.records := by
    rw [zip_map_self, changes_eq_map_recordSetsFor, hw1, hw]
    exact applyBatch_deletes config.HostedZoneID _ s.records
      (nodup_recordSetsFor _ _ _ _ hnodup) hnew
  rw [DeleteRecordSets_eq, hl]
  simp only []
  rw [dnsStore_change listNameTypeFirst _ _ w1.store _ hbatch]
  refine ⟨rfl, ?_⟩
  simp only [hw1, hw]

/-- C11, the claim at failing inputs. First, the zone already holds the address record
set of the name: the upsert replaces it, the delete removes what was upserted, and the
record set that was there before is gone. Second, the config names `a.example.com`
twice: the delete batch asks twice for the same removal and is refused, so the delete
fails and the upserted record sets stay. -/
theorem Upsert_Delete_not_restored :
    (DeleteRecordSets (dnsStoreAPI listNameTypeFirst) aConfig testInstance
      (UpsertRecordSets (dnsStoreAPI listNameTypeFirst) aConfig testInstance
        (World.fresh storeWithA)).2).1 = none
    ∧ (DeleteRecordSets (dnsStoreAPI listNameTypeFirst) aConfig testInstance
      (UpsertRecordSets (dnsStoreAPI listNameTypeFirst) aConfig testInstance
        (World.fresh storeWithA)).2).2.store.records = []
    ∧ storeWithA.records = [("ID", addressRecord "a.example.com" none "10.0.0.5")]
    ∧ (DeleteRecordSets (dnsStoreAPI listNameTypeFirst) aConfig testInstance
      (UpsertRecordSets (dnsStoreAPI listNameTypeFirst) aConfig testInstance
        (World.fresh storeWithA)).2).2.store ≠ storeWithA
    ∧ (UpsertRecordSets (dnsStoreAPI listNameTypeFirst) aTwiceConfig testInstance
        (World.fresh emptyStore)).1 = none
    ∧ (DeleteRecordSets (dnsStoreAPI listNameTypeFirst) aTwiceConfig testInstance
      (UpsertRecordSets (dnsStoreAPI listNameTypeFirst) aTwiceConfig testInstance
        (World.fresh emptyStore)).2).1 = some { msg := "InvalidChangeBatch" }
    ∧ (DeleteRecordSets (dnsStoreAPI listNameTypeFirst) aTwiceConfig testInstance
      (UpsertRecordSets (dnsStoreAPI listNameTypeFirst) aTwiceConfig testInstance
        (World.fresh emptyStore)).2).2.store ≠ emptyStore := by
  refine ⟨by rfl, by rfl, by rfl, by decide, by rfl, by rfl, by decide⟩

/-- C11, as amended: in the modelled store, for a config without group key whose names
are pairwise distinct, every instance, and every store state that holds in the zone of
the config no text or address record set without group key under any of the names:
`UpsertRecordSets` succeeds and adds the record sets of its batch, `DeleteRecordSets`
with the same config and instance then succeeds, and the store is again the state it
was in before the upsert. -/
theorem Upsert_then_Delete_restores (s : DNSStore) (config : Route53ZoneConfig)
    (ec2Instance : Instance)
    (hnokey : config.SetIdentifier = none)
    (hnodup : config.DNSRecords.Nodup)
    (hfree : ∀ p ∈ s.records, p.1 = config.HostedZoneID → ∀ name ∈ config.DNSRecords,
      p.2.Name = some name → p.2.SetIdentifier = none →
      p.2.RecordType ≠ some "A" ∧ p.2.RecordType ≠ some "TXT") :
    (UpsertRecordSets (dnsStoreAPI listNameTypeFirst) config ec2Instance (World.fresh s)).1
      = none
    ∧ (UpsertRecordSets (dnsStoreAPI listNameTypeFirst) config ec2Instance
        (World.fresh s)).2.store.records.length
      = s.records.length + 2 * config.DNSRecords.length
    ∧ (DeleteRecordSets (dnsStoreAPI listNameTypeFirst) config ec2Instance
        (UpsertRecordSets (dnsStoreAPI listNameTypeFirst) config ec2Instance
          (World.fresh s)).2).1 = none
    ∧ (DeleteRecordSets (dnsStoreAPI listNameTypeFirst) config ec2Instance
        (UpsertRecordSets (dnsStoreAPI listNameTypeFirst) config ec2Instance
          (World.fresh s)).2).2.store = s := by
  obtain ⟨hu1, hu2⟩ := UpsertRecordSets_dnsStore listNameTypeFirst s config ec2Instance
    (World.fresh s) rfl hnokey hnodup hfree
  obtain ⟨hd1, hd2⟩ := DeleteRecordSets_dnsStore s config ec2Instance _ _ hu2 hnokey hnodup
    hfree
  refine ⟨hu1, ?_, hd1, hd2⟩
  rw [hu2]
  simp only [List.length_append, List.length_map, recordSetsFor, getChanges]
  rw [length_flatten_pairs]

/-- Instance of C11: the three names of `abcConfig` on a store whose zone holds record
sets of other names, of another group key and of another zone. -/
theorem Upsert_then_Delete_restores_witness :
    (UpsertRecordSets (dnsStoreAPI listNameTypeFirst) abcConfig testInstance
        (World.fresh busyStore)).1 = none
    ∧ (UpsertRecordSets (dnsStoreAPI listNameTypeFirst) abcConfig testInstance
        (World.fresh busyStore)).2.store.records.length
      = busyStore.records.length + 2 * abcConfig.DNSRecords.length
    ∧ (DeleteRecordSets (dnsStoreAPI listNameTypeFirst) abcConfig testInstance
        (UpsertRecordSets (dnsStoreAPI listNameTypeFirst) abcConfig testInstance
          (World.fresh busyStore)).2).1 = none
    ∧ (DeleteRecordSets (dnsStoreAPI listNameTypeFirst) abcConfig testInstance
        (UpsertRecordSets (dnsStoreAPI listNameTypeFirst) abcConfig testInstance
          (World.fresh busyStore)).2).2.store = busyStore :=
  Upsert_then_Delete_restores busyStore abcConfig testInstance (by rfl) (by decide)
    (by decide)

end AsgRoute53
